import Mathlib

/-!
Sub-compositor protocol engine (`subcompositor_interface.cpp`).

A shallow embedding of `SubCompositorInterface::Private` and
`SubSurfaceInterface::Private`: the sub-surface creation request, the
double-buffered position, the synchronisation mode, restacking and destruction.

Objects are addressed by index into two stores (surfaces and sub-surfaces); an
index is never reused, so a `QPointer` is an optional index that counts as null
as soon as the object it names is no longer live.  Qt signals and libwayland
calls that leave the process (`wl_resource_post_error`, ...) are recorded, in
order, as a list of `Event`s returned next to the new state.
-/

namespace KWayland.Server

/-! Data model -/

/-- The Qt type `QPoint`: a pair of `int` coordinates. -/
structure QPoint where
  xp : Int
  yp : Int
deriving DecidableEq, Repr

/-- The enum `SubSurfaceInterface::Mode`. -/
inductive Mode where
  | Synchronized
  | Desynchronized
deriving DecidableEq, Repr

/-- Index of a `SurfaceInterface` in the surface store; it doubles as the
native `wl_resource` handle of that surface. -/
abbrev SurfaceId := Nat

/-- Index of a `SubSurfaceInterface` in the sub-surface store. -/
abbrev SubSurfaceId := Nat

/-- Handle `wl_resource *` other than a surface handle. -/
abbrev ResourceId := Nat

/-- Error codes of `wl_subcompositor` / `wl_subsurface` used by this file. -/
inductive WlError where
  | BAD_SURFACE
deriving DecidableEq, Repr

/-- What an operation lets the outside see: Qt signals and libwayland calls. -/
inductive Event where
  /-- Signal `emit q->positionChanged(pos)` -/
  | positionChanged (q : SubSurfaceId) (pos : QPoint)
  /-- Signal `emit q->modeChanged(m)` -/
  | modeChanged (q : SubSurfaceId) (m : Mode)
  /-- Signal `emit q->subSurfaceCreated(s)` -/
  | subSurfaceCreated (s : SubSurfaceId)
  /-- Call `wl_resource_post_error(resource, code, ...)` -/
  | postError (resource : Option ResourceId) (code : WlError)
  /-- Call `wl_resource_post_no_memory(resource)` -/
  | postNoMemory (resource : ResourceId)
  /-- Call `wl_resource_destroy(resource)` -/
  | resourceDestroy (resource : ResourceId)
deriving DecidableEq, Repr

/-- The members of `SubSurfaceInterface::Private`. -/
structure SubSurfaceInterface.Private where
  /-- Member `SubSurfaceInterface *q`, the public object this private part belongs to -/
  q : SubSurfaceId
  /-- Member `wl_resource *subSurface` -/
  subSurface : Option ResourceId
  /-- Member `QPointer<SurfaceInterface> surface` -/
  surface : Option SurfaceId
  /-- Member `QPointer<SurfaceInterface> parent` -/
  parent : Option SurfaceId
  pos : QPoint
  scheduledPos : QPoint
  scheduledPosChange : Bool
  mode : Mode
deriving DecidableEq, Repr

/-- The members of `SurfaceInterface::Private` that the sub-compositor touches:
the back-reference to the sub-surface role and the child sequence
(back to front, the last entry is the topmost child). -/
structure SurfaceInterface.Private where
  /-- Member `QPointer<SubSurfaceInterface> subSurface` -/
  subSurface : Option SubSurfaceId
  children : List SubSurfaceId
deriving DecidableEq, Repr

/-- The object graph of one display: both stores, `none` marking a destroyed
object. -/
structure World where
  surfaces : List (Option SurfaceInterface.Private)
  subSurfaces : List (Option SubSurfaceInterface.Private)
deriving DecidableEq, Repr

/-- The live surface at index `i`, if any. -/
def World.surface? (w : World) (i : SurfaceId) : Option SurfaceInterface.Private :=
  (w.surfaces[i]?).join

/-- The live sub-surface at index `i`, if any. -/
def World.subSurface? (w : World) (i : SubSurfaceId) : Option SubSurfaceInterface.Private :=
  (w.subSurfaces[i]?).join

/-- Overwrite the private part of sub-surface `i`. -/
def World.setSubSurface (w : World) (i : SubSurfaceId) (d : SubSurfaceInterface.Private) : World :=
  { w with subSurfaces := w.subSurfaces.set i (some d) }

/-- Apply `f` to the private part of surface `i` when that surface is live. -/
def World.modifySurface (w : World) (i : SurfaceId)
    (f : SurfaceInterface.Private → SurfaceInterface.Private) : World :=
  match w.surface? i with
  | some S => { w with surfaces := w.surfaces.set i (some (f S)) }
  | none => w

/-- Value of a `QPointer<SurfaceInterface>`: null once the surface is gone. -/
def World.data (w : World) (ptr : Option SurfaceId) : Option SurfaceId :=
  ptr.bind fun p => if (w.surface? p).isSome then some p else none

/-! Double-buffered position and mode -/

/-- Modelled from the spec: the member initialisers of
`SubSurfaceInterface::Private`, which are declared in `subsurface_interface_p.h`.
The constructor in `subcompositor_interface.cpp` only stores `q`.  The resource
is null (`create` asserts it), both `QPointer`s are null, the two points are
default constructed, and the pending position is not dirty, since by the spec a
commit with no prior `setPosition` changes nothing; the initial mode is the
parameter `mode0`. -/
def SubSurfaceInterface.Private.new (q : SubSurfaceId) (mode0 : Mode) :
    SubSurfaceInterface.Private :=
  { q := q, subSurface := none, surface := none, parent := none,
    pos := ⟨0, 0⟩, scheduledPos := ⟨0, 0⟩, scheduledPosChange := false, mode := mode0 }

/-- Method `SubSurfaceInterface::Private::setPosition`. -/
def SubSurfaceInterface.Private.setPosition (d : SubSurfaceInterface.Private) (p : QPoint) :
    SubSurfaceInterface.Private × List Event :=
  if d.scheduledPos = p then
    (d, [])
  else
    ({ d with scheduledPos := p, scheduledPosChange := true }, [])

/-- Method `SubSurfaceInterface::Private::commit`. -/
def SubSurfaceInterface.Private.commit (d : SubSurfaceInterface.Private) :
    SubSurfaceInterface.Private × List Event :=
  if d.scheduledPosChange then
    ({ d with scheduledPosChange := false, pos := d.scheduledPos, scheduledPos := ⟨0, 0⟩ },
      [Event.positionChanged d.q d.scheduledPos])
  else
    (d, [])

/-- Method `SubSurfaceInterface::Private::setMode`. -/
def SubSurfaceInterface.Private.setMode (d : SubSurfaceInterface.Private) (m : Mode) :
    SubSurfaceInterface.Private × List Event :=
  if d.mode = m then
    (d, [])
  else
    ({ d with mode := m }, [Event.modeChanged d.q m])

/-- Getter `SubSurfaceInterface::position`. -/
def SubSurfaceInterface.position (d : SubSurfaceInterface.Private) : QPoint := d.pos

/-- Getter `SubSurfaceInterface::mode`. -/
def SubSurfaceInterface.mode (d : SubSurfaceInterface.Private) : Mode := d.mode

/-- The two requests that drive the position buffer. -/
inductive PositionCall where
  | setPosition (p : QPoint)
  | commit
deriving DecidableEq, Repr

/-- Run one position request, dropping the events. -/
def PositionCall.run (d : SubSurfaceInterface.Private) : PositionCall → SubSurfaceInterface.Private
  | .setPosition p => (d.setPosition p).1
  | .commit => d.commit.1

/-- Run a sequence of position requests, oldest first. -/
def runPositionCalls (d : SubSurfaceInterface.Private) (cs : List PositionCall) :
    SubSurfaceInterface.Private :=
  cs.foldl PositionCall.run d

/-! Surface side of the hierarchy (`surface_interface.cpp`) -/

/-- Modelled from the spec: `SurfaceInterface::get`, which is defined in
`surface_interface.cpp`.  The spec asks of a surface a lookup by native handle
that yields the surface or nothing; the handle of a surface is its index here,
so a handle resolves exactly when a live surface sits at that index. -/
def SurfaceInterface.get (w : World) (native : SurfaceId) : Option SurfaceId :=
  if (w.surface? native).isSome then some native else none

/-- Modelled from the spec: `SurfaceInterface::Private::addChild`, which is
defined in `surface_interface.cpp`.  The spec registers the new sub-surface as
a child of the parent "appended at the top of its stacking order". -/
def SurfaceInterface.Private.addChild (S : SurfaceInterface.Private) (child : SubSurfaceId) :
    SurfaceInterface.Private :=
  { S with children := S.children ++ [child] }

/-- Modelled from the spec: `SurfaceInterface::Private::removeChild`, which is
defined in `surface_interface.cpp`.  The spec has a destroyed sub-surface
"detach itself from the parent's child sequence (so iteration elsewhere never
observes a dangling entry)": every entry naming the child is dropped. -/
def SurfaceInterface.Private.removeChild (S : SurfaceInterface.Private) (child : SubSurfaceId) :
    SurfaceInterface.Private :=
  { S with children := S.children.filter fun t => t ≠ child }

/-- Put `q` right after the first entry accepted by `isSibling`; `none` when no
entry is accepted. -/
def spliceAfter (isSibling : SubSurfaceId → Bool) (q : SubSurfaceId) :
    List SubSurfaceId → Option (List SubSurfaceId)
  | [] => none
  | t :: ts =>
    if isSibling t then some (t :: q :: ts)
    else (spliceAfter isSibling q ts).map fun l => t :: l

/-- Put `q` right before the first entry accepted by `isSibling`; `none` when no
entry is accepted. -/
def spliceBefore (isSibling : SubSurfaceId → Bool) (q : SubSurfaceId) :
    List SubSurfaceId → Option (List SubSurfaceId)
  | [] => none
  | t :: ts =>
    if isSibling t then some (q :: t :: ts)
    else (spliceBefore isSibling q ts).map fun l => t :: l

/-- Whether sub-surface `t` is the role of surface `x`. -/
def World.isRoleOf (w : World) (x : SurfaceId) (t : SubSurfaceId) : Bool :=
  decide ((w.subSurface? t).bind (fun d => d.surface) = some x)

/-- Modelled from the spec: `SurfaceInterface::Private::raiseChild`, which is
defined in `surface_interface.cpp`.  The spec reorders the invoking sub-surface
next to `sibling` in the parent's child sequence with a splice, "remove object
in place, reinsert at neighbor position", accepts as sibling one of the parent's
children or the parent itself, and fails, leaving the sequence as it was,
otherwise.  Above is after in the back-to-front sequence.  The sub-surface is
taken out first and the neighbour is looked up among the remaining entries, so
the sub-surface is no neighbour of itself: that is the spec's testable property
for `placeAbove(self, self)`, which is followed where the wording of the
operation ("is not the same SubSurface and not found among the parent's
children or the parent itself") can be read otherwise.  Relative to the parent
itself the spec fixes no position; the topmost one is taken.  The result is the
`bool` the C++ returns together with the new private part of the parent `p`. -/
def SurfaceInterface.Private.raiseChild (w : World) (p : SurfaceId)
    (S : SurfaceInterface.Private) (q : SubSurfaceId) (sibling : Option SurfaceId) :
    Bool × SurfaceInterface.Private :=
  if q ∈ S.children then
    match sibling with
    | none => (false, S)
    | some x =>
      if x = p then
        (true, { S with children := S.children.erase q ++ [q] })
      else
        match spliceAfter (w.isRoleOf x) q (S.children.erase q) with
        | some l => (true, { S with children := l })
        | none => (false, S)
  else
    (false, S)

/-- Modelled from the spec: `SurfaceInterface::Private::lowerChild`, which is
defined in `surface_interface.cpp`; the mirror image of `raiseChild`: the
sub-surface is reinserted right before its neighbour, and relative to the
parent itself it becomes the bottom entry. -/
def SurfaceInterface.Private.lowerChild (w : World) (p : SurfaceId)
    (S : SurfaceInterface.Private) (q : SubSurfaceId) (sibling : Option SurfaceId) :
    Bool × SurfaceInterface.Private :=
  if q ∈ S.children then
    match sibling with
    | none => (false, S)
    | some x =>
      if x = p then
        (true, { S with children := q :: S.children.erase q })
      else
        match spliceBefore (w.isRoleOf x) q (S.children.erase q) with
        | some l => (true, { S with children := l })
        | none => (false, S)
  else
    (false, S)

/-! Sub-surface side: creation, restacking, destruction -/

/-- Method `SubSurfaceInterface::Private::create`.  `created` is what
`wl_resource_create` returned: the new resource, or `none` for a null pointer
(out of memory). -/
def SubSurfaceInterface.Private.create (w : World) (q : SubSurfaceId)
    (created : Option ResourceId) (s p : SurfaceId) : World :=
  match w.subSurface? q with
  | none => w
  | some d =>
    match created with
    | none => w.setSubSurface q { d with subSurface := none }
    | some r =>
      let w1 := w.setSubSurface q { d with subSurface := some r, surface := some s, parent := some p }
      let w2 := w1.modifySurface s fun S => { S with subSurface := some q }
      w2.modifySurface p fun S => S.addChild q

/-- Destructor `SubSurfaceInterface::Private::~Private`, run as part of
`delete s`: afterwards the object is gone from the store, which also nulls
every `QPointer` to it. -/
def SubSurfaceInterface.Private.destructor (w : World) (q : SubSurfaceId) : World × List Event :=
  match w.subSurface? q with
  | none => (w, [])
  | some d =>
    let w1 :=
      match w.data d.parent with
      | some p => w.modifySurface p fun S => S.removeChild q
      | none => w
    let released :=
      match d.subSurface with
      | some r => [Event.resourceDestroy r]
      | none => []
    ({ w1 with subSurfaces := w1.subSurfaces.set q none }, released)

/-- Method `SubCompositorInterface::Private::subsurface`, the handler of the
creation request.  `resource` is the sub-compositor resource the request came
in on, `created` the outcome of `wl_resource_create` inside `create`, `mode0`
the initial mode of a sub-surface. -/
def SubCompositorInterface.Private.subsurface (w : World) (mode0 : Mode) (resource : ResourceId)
    (created : Option ResourceId) (nativeSurface nativeParentSurface : SurfaceId) :
    World × List Event :=
  match SurfaceInterface.get w nativeSurface, SurfaceInterface.get w nativeParentSurface with
  | some surface, some parentSurface =>
    if surface = parentSurface then
      (w, [Event.postError (some resource) WlError.BAD_SURFACE])
    else
      let s := w.subSurfaces.length
      let w0 := { w with subSurfaces := w.subSurfaces ++ [some (SubSurfaceInterface.Private.new s mode0)] }
      let w1 := SubSurfaceInterface.Private.create w0 s created surface parentSurface
      match (w1.subSurface? s).bind fun d => d.subSurface with
      | none =>
        let r := SubSurfaceInterface.Private.destructor w1 s
        (r.1, Event.postNoMemory resource :: r.2)
      | some _ => (w1, [Event.subSurfaceCreated s])
  | _, _ => (w, [Event.postError (some resource) WlError.BAD_SURFACE])

/-- Method `SubSurfaceInterface::Private::placeAbove`; `sibling` is the result
of `SurfaceInterface::get` on the handle the client sent. -/
def SubSurfaceInterface.Private.placeAbove (w : World) (q : SubSurfaceId)
    (sibling : Option SurfaceId) : World × List Event :=
  match w.subSurface? q with
  | none => (w, [])
  | some d =>
    match w.data d.parent with
    | none => (w, [])
    | some p =>
      match w.surface? p with
      | none => (w, [])
      | some S =>
        let r := S.raiseChild w p q sibling
        let w1 := { w with surfaces := w.surfaces.set p (some r.2) }
        if r.1 then (w1, []) else (w1, [Event.postError d.subSurface WlError.BAD_SURFACE])

/-- Method `SubSurfaceInterface::Private::placeBelow`; `sibling` is the result
of `SurfaceInterface::get` on the handle the client sent. -/
def SubSurfaceInterface.Private.placeBelow (w : World) (q : SubSurfaceId)
    (sibling : Option SurfaceId) : World × List Event :=
  match w.subSurface? q with
  | none => (w, [])
  | some d =>
    match w.data d.parent with
    | none => (w, [])
    | some p =>
      match w.surface? p with
      | none => (w, [])
      | some S =>
        let r := S.lowerChild w p q sibling
        let w1 := { w with surfaces := w.surfaces.set p (some r.2) }
        if r.1 then (w1, []) else (w1, [Event.postError d.subSurface WlError.BAD_SURFACE])

/-- Lift a method of `SubSurfaceInterface::Private` to the object graph. -/
def World.onSubSurface (w : World) (q : SubSurfaceId)
    (f : SubSurfaceInterface.Private → SubSurfaceInterface.Private × List Event) :
    World × List Event :=
  match w.subSurface? q with
  | none => (w, [])
  | some d => (w.setSubSurface q (f d).1, (f d).2)

/-- Getter `SubSurfaceInterface::parentSurface`. -/
def SubSurfaceInterface.parentSurface (w : World) (q : SubSurfaceId) : Option SurfaceId :=
  (w.subSurface? q).bind fun d => w.data d.parent

/-- Getter `SubSurfaceInterface::surface`. -/
def SubSurfaceInterface.surface (w : World) (q : SubSurfaceId) : Option SurfaceId :=
  (w.subSurface? q).bind fun d => w.data d.surface

/-- Child sequence of surface `p`; empty when `p` is not live. -/
def World.childrenOf (w : World) (p : SurfaceId) : List SubSurfaceId :=
  match w.surface? p with
  | some S => S.children
  | none => []

/-- Modelled from the spec: destruction of a surface, which happens in
`surface_interface.cpp`.  The surface leaves the store; the spec has each
child's parent back-reference become invalid "without extra caller action",
which the `QPointer` reading of a stored index gives. -/
def World.destroySurface (w : World) (p : SurfaceId) : World :=
  { w with surfaces := w.surfaces.set p none }

/-- Well-formed object graphs: every child sequence is free of repetitions and
names only sub-surfaces that have been constructed, and every live sub-surface
is listed by its parent (while that parent is live) and is not the role of its
own parent. -/
def World.WF (w : World) : Prop :=
  (∀ p < w.surfaces.length, ∀ S ∈ w.surface? p,
      S.children.Nodup ∧ ∀ t ∈ S.children, t < w.subSurfaces.length) ∧
  (∀ q < w.subSurfaces.length, ∀ d ∈ w.subSurface? q,
      (∀ p ∈ d.parent, ∀ S ∈ w.surface? p, q ∈ S.children) ∧
      (∀ c ∈ d.surface, d.parent ≠ some c))

instance (w : World) : Decidable w.WF := by
  unfold World.WF
  infer_instance

/-- Object graph with `n` live surfaces and no sub-surface yet. -/
def World.initial (n : Nat) : World :=
  { surfaces := List.replicate n (some { subSurface := none, children := [] }),
    subSurfaces := [] }

/-- Four surfaces; surface 0 has been made a sub-surface (resource 7) of
surface 1 by a creation request on sub-compositor resource 100. -/
def World.oneChild : World :=
  (SubCompositorInterface.Private.subsurface (World.initial 4) Mode.Synchronized 100 (some 7) 0 1).1

/-- The graph `World.oneChild` after surface 2 has also been made a
sub-surface (resource 8) of surface 1. -/
def World.twoChildren : World :=
  (SubCompositorInterface.Private.subsurface World.oneChild Mode.Synchronized 100 (some 8) 2 1).1

/-- The graph `World.oneChild` after its parent surface 1 has been destroyed. -/
def World.orphan : World :=
  World.oneChild.destroySurface 1

/-- Callback `SubSurfaceInterface::Private::placeAboveCallback`: resolves the
sibling handle and calls `placeAbove`. -/
def SubSurfaceInterface.Private.placeAboveCallback (w : World) (q : SubSurfaceId)
    (sibling : SurfaceId) : World × List Event :=
  SubSurfaceInterface.Private.placeAbove w q (SurfaceInterface.get w sibling)

/-- Callback `SubSurfaceInterface::Private::placeBelowCallback`: resolves the
sibling handle and calls `placeBelow`. -/
def SubSurfaceInterface.Private.placeBelowCallback (w : World) (q : SubSurfaceId)
    (sibling : SurfaceId) : World × List Event :=
  SubSurfaceInterface.Private.placeBelow w q (SurfaceInterface.get w sibling)

/-- The things that can happen to the object graph: the client requests, the
commit hook of the child surface, and the destruction of a sub-surface or of a
surface. -/
inductive Request where
  | subsurface (resource : ResourceId) (created : Option ResourceId)
      (nativeSurface nativeParentSurface : SurfaceId)
  | setPosition (q : SubSurfaceId) (p : QPoint)
  | commit (q : SubSurfaceId)
  | setMode (q : SubSurfaceId) (m : Mode)
  | placeAbove (q : SubSurfaceId) (sibling : SurfaceId)
  | placeBelow (q : SubSurfaceId) (sibling : SurfaceId)
  | destroy (q : SubSurfaceId)
  | destroySurface (p : SurfaceId)
deriving DecidableEq, Repr

/-- Effect of one request on the object graph. -/
def World.step (mode0 : Mode) (w : World) : Request → World × List Event
  | .subsurface resource created nativeSurface nativeParentSurface =>
    SubCompositorInterface.Private.subsurface w mode0 resource created nativeSurface
      nativeParentSurface
  | .setPosition q p => w.onSubSurface q fun d => d.setPosition p
  | .commit q => w.onSubSurface q fun d => d.commit
  | .setMode q m => w.onSubSurface q fun d => d.setMode m
  | .placeAbove q sibling => SubSurfaceInterface.Private.placeAboveCallback w q sibling
  | .placeBelow q sibling => SubSurfaceInterface.Private.placeBelowCallback w q sibling
  | .destroy q => SubSurfaceInterface.Private.destructor w q
  | .destroySurface p => (w.destroySurface p, [])

/-- Object graph after a sequence of requests, oldest first. -/
def World.run (mode0 : Mode) (w : World) (rs : List Request) : World :=
  rs.foldl (fun v r => (v.step mode0 r).1) w

/-! Life of a sub-surface object and of its native resource -/

/-- One `SubSurfaceInterface` together with what the event loop and libwayland
know about it: `d` is the private part while the C++ object exists and `none`
once it has been deleted, `deferredDelete` says that a `deleteLater()` is
pending, and `released` lists, in order, the resources libwayland has freed. -/
structure SubSurfaceLife where
  d : Option SubSurfaceInterface.Private
  deferredDelete : Bool
  released : List ResourceId
deriving DecidableEq, Repr

/-- A sub-surface right after a successful `create`: the object exists, holds
its resource, nothing is pending and nothing has been freed. -/
def SubSurfaceLife.live (d : SubSurfaceInterface.Private) : SubSurfaceLife :=
  { d := some d, deferredDelete := false, released := [] }

/-- Method `SubSurfaceInterface::Private::unbind`, the destroy hook installed by
`wl_resource_set_implementation`: it clears the handle and asks for the object
to be deleted later. -/
def SubSurfaceInterface.Private.unbind (l : SubSurfaceLife) : SubSurfaceLife :=
  match l.d with
  | some d => { l with d := some { d with subSurface := none }, deferredDelete := true }
  | none => l

/-- Method `SubSurfaceInterface::Private::destroyCallback`, the handler of the
client's destroy request: it only asks for the object to be deleted later. -/
def SubSurfaceInterface.Private.destroyCallback (l : SubSurfaceLife) : SubSurfaceLife :=
  match l.d with
  | some _ => { l with deferredDelete := true }
  | none => l

/-- The libwayland call `wl_resource_destroy(r)`, which is also what libwayland
does to every resource of a client that disconnects: the destroy hook of the
resource (`unbind`) runs, then the resource is freed. -/
def wl_resource_destroy (l : SubSurfaceLife) (r : ResourceId) : SubSurfaceLife :=
  { SubSurfaceInterface.Private.unbind l with
    released := (SubSurfaceInterface.Private.unbind l).released ++ [r] }

/-- Resource part of the destructor `SubSurfaceInterface::Private::~Private`
(the detaching from the parent is `SubSurfaceInterface.Private.destructor`): a
non-null handle is passed to `wl_resource_destroy`, which re-enters `unbind`
while the object is being destroyed; afterwards the object is gone, and with it
any pending deferred delete. -/
def SubSurfaceLife.destructor (l : SubSurfaceLife) : SubSurfaceLife :=
  match l.d with
  | none => l
  | some d =>
    let l1 :=
      match d.subSurface with
      | some r => wl_resource_destroy l r
      | none => l
    { l1 with d := none, deferredDelete := false }

/-- The event loop delivers a pending deferred delete: `delete q`. -/
def SubSurfaceLife.processDeferredDelete (l : SubSurfaceLife) : SubSurfaceLife :=
  if l.deferredDelete then l.destructor else l

/-- What can start or continue the destruction of a sub-surface whose resource
is `r`: the client's destroy request, the teardown of the resource by libwayland
(client disconnect), and the event loop reaching the deferred delete. -/
inductive LifeEvent where
  | destroyRequest
  | resourceTeardown
  | deferredDelete
deriving DecidableEq, Repr

/-- Effect of one life event.  libwayland dispatches a request and tears a
resource down only while it has not freed that resource. -/
def SubSurfaceLife.step (r : ResourceId) (l : SubSurfaceLife) : LifeEvent → SubSurfaceLife
  | .destroyRequest =>
    if r ∈ l.released then l else SubSurfaceInterface.Private.destroyCallback l
  | .resourceTeardown =>
    if r ∈ l.released then l else wl_resource_destroy l r
  | .deferredDelete => l.processDeferredDelete

/-- State after a sequence of life events, oldest first. -/
def SubSurfaceLife.run (r : ResourceId) (l : SubSurfaceLife) (es : List LifeEvent) :
    SubSurfaceLife :=
  es.foldl (SubSurfaceLife.step r) l

/-! Tablet tool: proximity and frames (`tablet_v2_interface.cpp`) -/

/-- Identity of a client connection. -/
abbrev ClientId := Nat

/-- Identity of a tablet. -/
abbrev TabletId := Nat

/-- One staged per-axis update of a tool. -/
inductive ToolUpdate where
  | pressure (value : Nat)
  | motion (x y : Int)
deriving DecidableEq, Repr

/-- What a client gets to see of a tool. -/
inductive ToolEvent where
  | proximityIn (client : ClientId) (serial : Nat) (tablet : TabletId) (surface : SurfaceId)
  | proximityOut (client : ClientId)
  | frame (client : ClientId) (serial : Nat) (updates : List ToolUpdate)
deriving DecidableEq, Repr

/-- Modelled from the spec: the state of a `TabletToolV2Interface`, whose class
is defined in `tablet_v2_interface.cpp`.  The spec gives a tool zero or one
current surface and zero or one tablet it interacts through, has the per-axis
sends stage an update until the next frame, and has the tool be supported by
the client until the frame that terminates a proximity session has been sent:
`leaving` records that proximity-out was requested and that frame is still to
come.  `bound` lists the clients that have bound the tool's protocol object,
`nextSerial` is the source of fresh serials. -/
structure TabletToolV2Interface where
  bound : List ClientId
  surface : Option SurfaceId
  tablet : Option TabletId
  leaving : Bool
  staged : List ToolUpdate
  nextSerial : Nat
deriving DecidableEq, Repr

/-- Modelled from the spec: the tool an operator's `addTool` creates, before any
surface is set ("`isClientSupported()` is false before any surface is set"). -/
def TabletToolV2Interface.new (bound : List ClientId) : TabletToolV2Interface :=
  { bound := bound, surface := none, tablet := none, leaving := false, staged := [],
    nextSerial := 0 }

/-- Modelled from the spec: the client events of a tool go to, "the client
owning the current surface", provided that client has bound the tool; `client`
is the owner of each surface. -/
def TabletToolV2Interface.target (client : SurfaceId → ClientId) (t : TabletToolV2Interface) :
    Option ClientId :=
  t.surface.bind fun s => if client s ∈ t.bound then some (client s) else none

/-- Modelled from the spec: `TabletToolV2Interface::isClientSupported`, "true iff
surface is non-null AND that surface's client has a live binding" for the tool. -/
def TabletToolV2Interface.isClientSupported (client : SurfaceId → ClientId)
    (t : TabletToolV2Interface) : Bool :=
  (t.target client).isSome

/-- Modelled from the spec: `TabletToolV2Interface::setCurrentSurface`, which
always succeeds and by itself emits nothing. -/
def TabletToolV2Interface.setCurrentSurface (t : TabletToolV2Interface)
    (surface : Option SurfaceId) : TabletToolV2Interface :=
  { t with surface := surface }

/-- Modelled from the spec: `TabletToolV2Interface::sendProximityIn`, which
emits proximity-in with a fresh serial to the client owning the current surface
and associates the tool with the tablet; nothing happens without a current
surface, and nothing is delivered to a client that has not bound the tool. -/
def TabletToolV2Interface.sendProximityIn (client : SurfaceId → ClientId)
    (t : TabletToolV2Interface) (tablet : TabletId) :
    TabletToolV2Interface × List ToolEvent :=
  match t.surface with
  | none => (t, [])
  | some s =>
    ({ t with tablet := some tablet, nextSerial := t.nextSerial + 1 },
      match t.target client with
      | some c => [ToolEvent.proximityIn c t.nextSerial tablet s]
      | none => [])

/-- Modelled from the spec: `TabletToolV2Interface::sendPressure`, which stages
one field of the update in flight and delivers nothing. -/
def TabletToolV2Interface.sendPressure (t : TabletToolV2Interface) (value : Nat) :
    TabletToolV2Interface :=
  { t with staged := t.staged ++ [ToolUpdate.pressure value] }

/-- Modelled from the spec: `TabletToolV2Interface::sendMotion`, which stages
one field of the update in flight and delivers nothing. -/
def TabletToolV2Interface.sendMotion (t : TabletToolV2Interface) (x y : Int) :
    TabletToolV2Interface :=
  { t with staged := t.staged ++ [ToolUpdate.motion x y] }

/-- Stage one update through the send that belongs to it. -/
def TabletToolV2Interface.sendUpdate (t : TabletToolV2Interface) : ToolUpdate →
    TabletToolV2Interface
  | .pressure value => t.sendPressure value
  | .motion x y => t.sendMotion x y

/-- Stage a sequence of updates, oldest first. -/
def TabletToolV2Interface.sendUpdates (t : TabletToolV2Interface) (us : List ToolUpdate) :
    TabletToolV2Interface :=
  us.foldl TabletToolV2Interface.sendUpdate t

/-- Modelled from the spec: `TabletToolV2Interface::sendProximityOut`, which
emits proximity-out; the tool stays supported for one more frame. -/
def TabletToolV2Interface.sendProximityOut (client : SurfaceId → ClientId)
    (t : TabletToolV2Interface) : TabletToolV2Interface × List ToolEvent :=
  ({ t with leaving := true },
    match t.target client with
    | some c => [ToolEvent.proximityOut c]
    | none => [])

/-- Modelled from the spec: `TabletToolV2Interface::sendFrame`, which flushes
everything staged since the last frame as one batch, stamped with the serial
supplied, to the client owning the current surface at call time; the frame that
follows a proximity-out ends the session, and the tool is back to having no
current surface. -/
def TabletToolV2Interface.sendFrame (client : SurfaceId → ClientId)
    (t : TabletToolV2Interface) (serial : Nat) : TabletToolV2Interface × List ToolEvent :=
  (if t.leaving then
      { t with staged := [], surface := none, tablet := none, leaving := false }
    else
      { t with staged := [] },
    match t.target client with
    | some c => [ToolEvent.frame c serial t.staged]
    | none => [])

/-- Either the resource `r` is still held and has not been freed, or it has been
freed once and no handle is held any more. -/
def SubSurfaceLife.Inv (r : ResourceId) (l : SubSurfaceLife) : Prop :=
  (l.released = [] ∧ ∃ d, l.d = some d ∧ d.subSurface = some r) ∨
  (l.released = [r] ∧ ∀ d, l.d = some d → d.subSurface = none)

/-- The calls `test_tablet_interface.cpp` makes on the tool. -/
inductive ToolCall where
  | setCurrentSurface (surface : Option SurfaceId)
  | sendProximityIn (tablet : TabletId)
  | sendPressure (value : Nat)
  | sendMotion (x y : Int)
  | sendFrame (serial : Nat)
  | sendProximityOut
deriving DecidableEq, Repr

/-- Run one call on the tool, dropping the events. -/
def TabletToolV2Interface.call (client : SurfaceId → ClientId) (t : TabletToolV2Interface) :
    ToolCall → TabletToolV2Interface
  | .setCurrentSurface surface => t.setCurrentSurface surface
  | .sendProximityIn tablet => (t.sendProximityIn client tablet).1
  | .sendPressure value => t.sendPressure value
  | .sendMotion x y => t.sendMotion x y
  | .sendFrame serial => (t.sendFrame client serial).1
  | .sendProximityOut => (t.sendProximityOut client).1

/-- Run a sequence of calls, oldest first. -/
def TabletToolV2Interface.calls (client : SurfaceId → ClientId) (t : TabletToolV2Interface)
    (cs : List ToolCall) : TabletToolV2Interface :=
  cs.foldl (TabletToolV2Interface.call client) t

/-- Setting of `test_tablet_interface.cpp`: one client (0) owns the three
surfaces and has bound the tool through its tablet seat. -/
def testClient : SurfaceId → ClientId := fun _ => 0

/-- The tool `testAdd` creates. -/
def testTool : TabletToolV2Interface := TabletToolV2Interface.new [0]

/-- The calls of `testInteractSimple` up to and including `sendProximityOut`. -/
def testInteractSimpleCalls : List ToolCall :=
  [.setCurrentSurface (some 0), .sendProximityIn 0, .sendPressure 0, .sendFrame 0,
   .sendMotion 3 3, .sendFrame 1, .sendProximityOut]

/-- The calls of `testInteractSurfaceChange` up to and including
`sendProximityOut`. -/
def testInteractSurfaceChangeCalls : List ToolCall :=
  [.setCurrentSurface (some 0), .sendProximityIn 0, .sendPressure 0, .sendFrame 3,
   .setCurrentSurface (some 1), .sendMotion 3 3, .sendFrame 4, .sendProximityOut]

/-! Theorems -/

/-! Object graph: lookup lemmas -/

/-- A live surface is stored at its index. -/
theorem surface?_eq_some {w : World} {p : SurfaceId} {S : SurfaceInterface.Private}
    (h : w.surface? p = some S) : w.surfaces[p]? = some (some S) := by
  unfold World.surface? at h
  cases hp : w.surfaces[p]? with
  | none => simp [hp] at h
  | some o => simp [hp] at h; simp [h]

/-- The index of a live surface is within the store. -/
theorem surface?_lt {w : World} {p : SurfaceId} {S : SurfaceInterface.Private}
    (h : w.surface? p = some S) : p < w.surfaces.length := by
  have := surface?_eq_some h
  exact (List.getElem?_eq_some_iff.mp this).1

/-- A live sub-surface is stored at its index. -/
theorem subSurface?_eq_some {w : World} {q : SubSurfaceId} {d : SubSurfaceInterface.Private}
    (h : w.subSurface? q = some d) : w.subSurfaces[q]? = some (some d) := by
  unfold World.subSurface? at h
  cases hp : w.subSurfaces[q]? with
  | none => simp [hp] at h
  | some o => simp [hp] at h; simp [h]

/-- The index of a live sub-surface is within the store. -/
theorem subSurface?_lt {w : World} {q : SubSurfaceId} {d : SubSurfaceInterface.Private}
    (h : w.subSurface? q = some d) : q < w.subSurfaces.length := by
  have := subSurface?_eq_some h
  exact (List.getElem?_eq_some_iff.mp this).1

/-- Writing back what is already stored changes nothing. -/
theorem set_same {α : Type} (l : List α) (i : Nat) (a : α) (h : l[i]? = some a) :
    l.set i a = l := by
  apply List.ext_getElem?
  intro j
  by_cases hj : i = j
  · subst hj
    rw [List.getElem?_set_self (List.getElem?_eq_some_iff.mp h).1, h]
  · rw [List.getElem?_set_ne hj]

/-- Lookup of a surface after one slot of the surface store was overwritten. -/
theorem surface?_set (w : World) (i j : SurfaceId) (o : Option SurfaceInterface.Private)
    (sub : List (Option SubSurfaceInterface.Private)) :
    World.surface? { surfaces := w.surfaces.set i o, subSurfaces := sub } j =
      if j = i ∧ i < w.surfaces.length then o else w.surface? j := by
  unfold World.surface?
  by_cases hj : i = j
  · subst hj
    by_cases hi : i < w.surfaces.length
    · simp [hi, List.getElem?_set_self hi]
    · have h0 : (w.surfaces.set i o).length ≤ i := by
        rw [List.length_set]
        exact Nat.le_of_not_lt hi
      have h1 : (w.surfaces.set i o)[i]? = none := List.getElem?_eq_none h0
      simp [hi, h1, List.getElem?_eq_none (Nat.le_of_not_lt hi)]
  · have : ¬ (j = i ∧ i < w.surfaces.length) := fun h => hj h.1.symm
    simp [this, List.getElem?_set_ne hj]

/-- Modifying a surface leaves the sub-surface store alone. -/
theorem modifySurface_subSurfaces (w : World) (i : SurfaceId)
    (f : SurfaceInterface.Private → SurfaceInterface.Private) :
    (w.modifySurface i f).subSurfaces = w.subSurfaces := by
  unfold World.modifySurface
  split <;> rfl

/-- Lookup of a surface after `modifySurface`. -/
theorem modifySurface_surface? (w : World) (i j : SurfaceId)
    (f : SurfaceInterface.Private → SurfaceInterface.Private) :
    (w.modifySurface i f).surface? j = if j = i then (w.surface? i).map f else w.surface? j := by
  unfold World.modifySurface
  split
  · next S hS =>
    rw [surface?_set]
    by_cases hj : j = i
    · simp [hj, surface?_lt hS, hS]
    · simp [hj]
  · next hS =>
    by_cases hj : j = i
    · simp [hj, hS]
    · simp [hj]

/-- Modifying a surface keeps the size of the surface store. -/
theorem modifySurface_length (w : World) (i : SurfaceId)
    (f : SurfaceInterface.Private → SurfaceInterface.Private) :
    (w.modifySurface i f).surfaces.length = w.surfaces.length := by
  unfold World.modifySurface
  split <;> simp

/-- Overwriting the last element of a list. -/
theorem set_append_last {α : Type} (l : List α) (a b : α) :
    (l ++ [a]).set l.length b = l ++ [b] := by
  induction l with
  | nil => rfl
  | cons x xs ih => simp [ih]

/-- Reading the last element of a list. -/
theorem getElem?_append_last {α : Type} (l : List α) (a : α) :
    (l ++ [a])[l.length]? = some a := by
  simp

/-- A handle that resolves is the index of a live surface. -/
theorem get_eq_some (w : World) (n c : SurfaceId) (h : SurfaceInterface.get w n = some c) :
    n = c ∧ ∃ S, w.surface? c = some S := by
  unfold SurfaceInterface.get at h
  split at h
  · next hl =>
    cases h
    exact ⟨rfl, Option.isSome_iff_exists.mp hl⟩
  · cases h

/-- Lookup of the sub-surface that was appended last. -/
theorem subSurface?_append_last (sf : List (Option SurfaceInterface.Private))
    (l : List (Option SubSurfaceInterface.Private)) (o : Option SubSurfaceInterface.Private) :
    World.subSurface? { surfaces := sf, subSurfaces := l ++ [o] } l.length = o := by
  simp [World.subSurface?]

/-- Appending a sub-surface does not change the lookup of any other index. -/
theorem subSurface?_append_lt (sf : List (Option SurfaceInterface.Private))
    (l : List (Option SubSurfaceInterface.Private)) (o : Option SubSurfaceInterface.Private)
    (i : Nat) (h : i ≠ l.length) :
    World.subSurface? { surfaces := sf, subSurfaces := l ++ [o] } i =
      World.subSurface? { surfaces := sf, subSurfaces := l } i := by
  unfold World.subSurface?
  rcases Nat.lt_or_gt_of_ne h with h1 | h1
  · rw [List.getElem?_append_left h1]
  · have h2 : (l ++ [o])[i]? = none := List.getElem?_eq_none (by simp; omega)
    have h3 : l[i]? = none := List.getElem?_eq_none (by omega)
    simp [h2, h3]

/-- Result of `create` on the newly appended object when allocation fails. -/
theorem create_none (w : World) (d : SubSurfaceInterface.Private) (s p : SurfaceId) :
    SubSurfaceInterface.Private.create
        { w with subSurfaces := w.subSurfaces ++ [some d] } w.subSurfaces.length none s p =
      { w with subSurfaces := w.subSurfaces ++ [some { d with subSurface := none }] } := by
  unfold SubSurfaceInterface.Private.create
  rw [subSurface?_append_last]
  simp [World.setSubSurface, set_append_last]

/-- Result of `create` on the newly appended object when allocation succeeds. -/
theorem create_some (w : World) (d : SubSurfaceInterface.Private) (r : ResourceId)
    (s p : SurfaceId) :
    SubSurfaceInterface.Private.create
        { w with subSurfaces := w.subSurfaces ++ [some d] } w.subSurfaces.length (some r) s p =
      (World.modifySurface
        (World.modifySurface
          { w with subSurfaces := w.subSurfaces ++
            [some { d with subSurface := some r, surface := some s, parent := some p }] }
          s fun S => { S with subSurface := some w.subSurfaces.length })
        p fun S => S.addChild w.subSurfaces.length) := by
  unfold SubSurfaceInterface.Private.create
  rw [subSurface?_append_last]
  simp [World.setSubSurface, set_append_last]

/-- The lookup of a sub-surface depends on the sub-surface store only. -/
theorem subSurface?_congr {w1 w2 : World} (h : w1.subSurfaces = w2.subSurfaces)
    (i : SubSurfaceId) : w1.subSurface? i = w2.subSurface? i := by
  unfold World.subSurface?
  rw [h]

/-- The object graph a successful creation request ends in. -/
theorem subsurface_some (w : World) (mode0 : Mode) (resource r : ResourceId)
    (nativeSurface nativeParentSurface surface parentSurface : SurfaceId)
    (hs : SurfaceInterface.get w nativeSurface = some surface)
    (hp : SurfaceInterface.get w nativeParentSurface = some parentSurface)
    (hne : surface ≠ parentSurface) :
    SubCompositorInterface.Private.subsurface w mode0 resource (some r) nativeSurface
        nativeParentSurface =
      (World.modifySurface
        (World.modifySurface
          { w with subSurfaces := w.subSurfaces ++
            [some { SubSurfaceInterface.Private.new w.subSurfaces.length mode0 with
              subSurface := some r, surface := some surface, parent := some parentSurface }] }
          surface fun S => { S with subSurface := some w.subSurfaces.length })
        parentSurface fun S => S.addChild w.subSurfaces.length,
       [Event.subSurfaceCreated w.subSurfaces.length]) := by
  unfold SubCompositorInterface.Private.subsurface
  simp only [hs, hp, hne, if_false]
  rw [create_some]
  have h : ∀ W : World, W.subSurfaces = w.subSurfaces ++
      [some { SubSurfaceInterface.Private.new w.subSurfaces.length mode0 with
        subSurface := some r, surface := some surface, parent := some parentSurface }] →
      ((W.subSurface? w.subSurfaces.length).bind fun d => d.subSurface) = some r := by
    intro W hW
    simp [World.subSurface?, hW]
  rw [h _ (by rw [modifySurface_subSurfaces, modifySurface_subSurfaces])]

/-! Position buffer and mode: theorems -/

/-- A commit always leaves the pending position clean. -/
theorem commit_clears_dirty (d : SubSurfaceInterface.Private) :
    d.commit.1.scheduledPosChange = false := by
  unfold SubSurfaceInterface.Private.commit
  split <;> simp_all

/-- From every state of the position buffer some request sequence leads to a
state in which a further `setPosition(p)`, `commit()` does not make `p` the
position: the failure of C1 does not hinge on the initial member values. -/
theorem setPosition_commit_can_miss (d : SubSurfaceInterface.Private) :
    ∃ (cs : List PositionCall) (p : QPoint),
      SubSurfaceInterface.position
        ((runPositionCalls d cs).setPosition p).1.commit.1 ≠ p := by
  by_cases h : d.scheduledPos = ⟨1, 1⟩
  · refine ⟨[.setPosition ⟨2, 2⟩, .commit], ⟨0, 0⟩, ?_⟩
    simp [runPositionCalls, PositionCall.run, SubSurfaceInterface.Private.setPosition,
      SubSurfaceInterface.Private.commit, SubSurfaceInterface.position, h]
  · refine ⟨[.setPosition ⟨1, 1⟩, .commit], ⟨0, 0⟩, ?_⟩
    simp [runPositionCalls, PositionCall.run, SubSurfaceInterface.Private.setPosition,
      SubSurfaceInterface.Private.commit, SubSurfaceInterface.position, h]

/-- C1, evaluated at the failing input: on a freshly constructed sub-surface,
after `setPosition(5, 5)` and `commit()` the position is `(5, 5)` and the
pending position has been reset to the origin, not dirty; `setPosition(0, 0)`
then returns early without marking the buffer dirty, and the following
`commit()` leaves the position at `(5, 5)` instead of `(0, 0)` and emits
nothing. -/
theorem setPosition_origin_after_commit_is_dropped :
    SubSurfaceInterface.position
        (runPositionCalls (SubSurfaceInterface.Private.new 0 Mode.Synchronized)
          [.setPosition ⟨5, 5⟩, .commit]) = ⟨5, 5⟩ ∧
    (runPositionCalls (SubSurfaceInterface.Private.new 0 Mode.Synchronized)
        [.setPosition ⟨5, 5⟩, .commit]).scheduledPos = ⟨0, 0⟩ ∧
    (runPositionCalls (SubSurfaceInterface.Private.new 0 Mode.Synchronized)
        [.setPosition ⟨5, 5⟩, .commit]).scheduledPosChange = false ∧
    (runPositionCalls (SubSurfaceInterface.Private.new 0 Mode.Synchronized)
        [.setPosition ⟨5, 5⟩, .commit, .setPosition ⟨0, 0⟩]).scheduledPosChange = false ∧
    (runPositionCalls (SubSurfaceInterface.Private.new 0 Mode.Synchronized)
        [.setPosition ⟨5, 5⟩, .commit, .setPosition ⟨0, 0⟩]).commit.2 = [] ∧
    SubSurfaceInterface.position
        (runPositionCalls (SubSurfaceInterface.Private.new 0 Mode.Synchronized)
          [.setPosition ⟨5, 5⟩, .commit, .setPosition ⟨0, 0⟩, .commit]) = ⟨5, 5⟩ ∧
    SubSurfaceInterface.position
        (runPositionCalls (SubSurfaceInterface.Private.new 0 Mode.Synchronized)
          [.setPosition ⟨5, 5⟩, .commit, .setPosition ⟨0, 0⟩, .commit]) ≠ ⟨0, 0⟩ := by
  decide

/-- Restacking above a sibling does not touch the sub-surface store and emits
at most the protocol error. -/
theorem placeAbove_subSurfaces (w : World) (q : SubSurfaceId) (sibling : Option SurfaceId) :
    (SubSurfaceInterface.Private.placeAbove w q sibling).1.subSurfaces = w.subSurfaces ∧
    ∀ e ∈ (SubSurfaceInterface.Private.placeAbove w q sibling).2,
      ∃ r, e = Event.postError r WlError.BAD_SURFACE := by
  unfold SubSurfaceInterface.Private.placeAbove
  split
  · simp
  · split
    · simp
    · split
      · simp
      · dsimp only
        split <;> simp

/-- Restacking below a sibling does not touch the sub-surface store and emits
at most the protocol error. -/
theorem placeBelow_subSurfaces (w : World) (q : SubSurfaceId) (sibling : Option SurfaceId) :
    (SubSurfaceInterface.Private.placeBelow w q sibling).1.subSurfaces = w.subSurfaces ∧
    ∀ e ∈ (SubSurfaceInterface.Private.placeBelow w q sibling).2,
      ∃ r, e = Event.postError r WlError.BAD_SURFACE := by
  unfold SubSurfaceInterface.Private.placeBelow
  split
  · simp
  · split
    · simp
    · split
      · simp
      · dsimp only
        split <;> simp

/-- C7: the effective position changes only at a commit that finds the pending
position dirty.  In every state, dirty or clean, `setPosition` and `setMode`
keep `position()` and emit no `positionChanged`, and `placeAbove` and
`placeBelow` leave every sub-surface (hence every position) as it was and emit
no `positionChanged`.  A sub-surface is constructed clean and every commit
leaves it clean.  `commit()` on a clean pending position changes nothing at all
and emits nothing; a commit that changes `position()` or emits anything found
the pending position dirty. -/
theorem position_changes_only_at_dirty_commit (d : SubSurfaceInterface.Private) (p : QPoint)
    (m : Mode) (w : World) (q : SubSurfaceId) (sibling : Option SurfaceId) :
    (SubSurfaceInterface.position (d.setPosition p).1 = SubSurfaceInterface.position d ∧
      (d.setPosition p).2 = []) ∧
    (SubSurfaceInterface.position (d.setMode m).1 = SubSurfaceInterface.position d ∧
      ∀ t pos, Event.positionChanged t pos ∉ (d.setMode m).2) ∧
    ((SubSurfaceInterface.Private.placeAbove w q sibling).1.subSurfaces = w.subSurfaces ∧
      ∀ t pos, Event.positionChanged t pos ∉ (SubSurfaceInterface.Private.placeAbove w q sibling).2) ∧
    ((SubSurfaceInterface.Private.placeBelow w q sibling).1.subSurfaces = w.subSurfaces ∧
      ∀ t pos, Event.positionChanged t pos ∉ (SubSurfaceInterface.Private.placeBelow w q sibling).2) ∧
    (SubSurfaceInterface.Private.new q m).scheduledPosChange = false ∧
    d.commit.1.scheduledPosChange = false ∧
    (d.scheduledPosChange = false → d.commit = (d, [])) ∧
    (SubSurfaceInterface.position d.commit.1 ≠ SubSurfaceInterface.position d →
      d.scheduledPosChange = true) ∧
    (d.commit.2 ≠ [] → d.scheduledPosChange = true) := by
  refine ⟨?_, ?_, ?_, ?_, rfl, commit_clears_dirty _, ?_, ?_, ?_⟩
  · unfold SubSurfaceInterface.Private.setPosition SubSurfaceInterface.position
    split <;> simp
  · unfold SubSurfaceInterface.Private.setMode SubSurfaceInterface.position
    split <;> simp
  · refine ⟨(placeAbove_subSurfaces w q sibling).1, fun t pos hmem => ?_⟩
    obtain ⟨r, hr⟩ := (placeAbove_subSurfaces w q sibling).2 _ hmem
    cases hr
  · refine ⟨(placeBelow_subSurfaces w q sibling).1, fun t pos hmem => ?_⟩
    obtain ⟨r, hr⟩ := (placeBelow_subSurfaces w q sibling).2 _ hmem
    cases hr
  · intro hclean
    simp [SubSurfaceInterface.Private.commit, hclean]
  · intro hne
    cases hflag : d.scheduledPosChange with
    | true => rfl
    | false =>
      exfalso
      apply hne
      simp [SubSurfaceInterface.Private.commit, hflag]
  · intro hne
    cases hflag : d.scheduledPosChange with
    | true => rfl
    | false =>
      exfalso
      apply hne
      simp [SubSurfaceInterface.Private.commit, hflag]

/-- Witness of C7 on a sub-surface whose pending position `(8, 8)` is dirty
(`setPosition` keeps the position `(3, 4)`) and on one whose position `(3, 4)`
was committed earlier (the commit is a no-op). -/
theorem position_changes_only_at_dirty_commit_witness :
    SubSurfaceInterface.position
      ((⟨0, some 7, some 0, some 1, ⟨3, 4⟩, ⟨8, 8⟩, true, Mode.Synchronized⟩ :
        SubSurfaceInterface.Private).setPosition ⟨9, 9⟩).1 = ⟨3, 4⟩ ∧
    (⟨0, some 7, some 0, some 1, ⟨3, 4⟩, ⟨0, 0⟩, false, Mode.Synchronized⟩ :
        SubSurfaceInterface.Private).commit =
      (⟨0, some 7, some 0, some 1, ⟨3, 4⟩, ⟨0, 0⟩, false, Mode.Synchronized⟩, []) :=
  ⟨(position_changes_only_at_dirty_commit
    ⟨0, some 7, some 0, some 1, ⟨3, 4⟩, ⟨8, 8⟩, true, Mode.Synchronized⟩ ⟨9, 9⟩
    Mode.Desynchronized (World.initial 0) 0 none).1.1,
   (position_changes_only_at_dirty_commit
    ⟨0, some 7, some 0, some 1, ⟨3, 4⟩, ⟨0, 0⟩, false, Mode.Synchronized⟩ ⟨9, 9⟩
    Mode.Desynchronized
    ⟨[some ⟨some 0, []⟩, some ⟨none, [0]⟩],
      [some ⟨0, some 7, some 0, some 1, ⟨3, 4⟩, ⟨0, 0⟩, false, Mode.Synchronized⟩]⟩
    0 (some 1)).2.2.2.2.2.2.1 rfl⟩

/-- C8: `setMode` is idempotent.  With the mode already `m` the call changes
nothing and emits nothing; otherwise it sets `mode()` to `m`, keeps every other
member and emits exactly one `modeChanged(m)`; a second `setMode(m)` right after
the first changes nothing and emits nothing, so two calls in a row emit what one
call emits and end in the state one call ends in. -/
theorem setMode_idempotent (d : SubSurfaceInterface.Private) (m : Mode) :
    (SubSurfaceInterface.mode d = m → d.setMode m = (d, [])) ∧
    (SubSurfaceInterface.mode d ≠ m →
      d.setMode m = ({ d with mode := m }, [Event.modeChanged d.q m])) ∧
    SubSurfaceInterface.mode (d.setMode m).1 = m ∧
    (d.setMode m).1.setMode m = ((d.setMode m).1, []) ∧
    (d.setMode m).2 ++ ((d.setMode m).1.setMode m).2 = (d.setMode m).2 ∧
    ((d.setMode m).2 = [] ∨ (d.setMode m).2 = [Event.modeChanged d.q m]) := by
  unfold SubSurfaceInterface.Private.setMode SubSurfaceInterface.mode
  by_cases h : d.mode = m <;> simp [h]

/-! Creation request: theorems -/

/-- An unresolved handle or an identical pair ends the creation request with the
protocol error and nothing else. -/
theorem subsurface_rejects (w : World) (mode0 : Mode) (resource : ResourceId)
    (created : Option ResourceId) (nativeSurface nativeParentSurface : SurfaceId)
    (h : SurfaceInterface.get w nativeSurface = none ∨
         SurfaceInterface.get w nativeParentSurface = none ∨
         SurfaceInterface.get w nativeSurface = SurfaceInterface.get w nativeParentSurface) :
    SubCompositorInterface.Private.subsurface w mode0 resource created nativeSurface
        nativeParentSurface =
      (w, [Event.postError (some resource) WlError.BAD_SURFACE]) := by
  unfold SubCompositorInterface.Private.subsurface
  split
  · next surface parentSurface hs hp =>
    rcases h with h | h | h
    · simp [hs] at h
    · simp [hp] at h
    · rw [hs, hp] at h
      simp [Option.some.inj h]
  · rfl

/-- C2: the creation request fails with `BAD_SURFACE`, posted on the requesting
sub-compositor resource, whenever the child handle or the parent handle does
not resolve to a live surface or both resolve to the same surface; the error is
the only thing emitted (no `subSurfaceCreated`) and the object graph is exactly
what it was: no sub-surface object exists that did not exist before and no
surface has changed.  This holds whatever `wl_resource_create` would have
returned. -/
theorem subsurface_bad_surface (w : World) (mode0 : Mode) (resource : ResourceId)
    (created : Option ResourceId) (nativeSurface nativeParentSurface : SurfaceId)
    (h : SurfaceInterface.get w nativeSurface = none ∨
         SurfaceInterface.get w nativeParentSurface = none ∨
         SurfaceInterface.get w nativeSurface = SurfaceInterface.get w nativeParentSurface) :
    SubCompositorInterface.Private.subsurface w mode0 resource created nativeSurface
        nativeParentSurface =
      (w, [Event.postError (some resource) WlError.BAD_SURFACE]) :=
  subsurface_rejects w mode0 resource created nativeSurface nativeParentSurface h

/-- Witness of C2: on four live surfaces, a request with an unresolved child
handle (5), one with an unresolved parent handle (9) and one naming surface 1
as both child and parent. -/
theorem subsurface_bad_surface_witness :
    SubCompositorInterface.Private.subsurface (World.initial 4) Mode.Synchronized 100 (some 7) 5 1 =
      (World.initial 4, [Event.postError (some 100) WlError.BAD_SURFACE]) ∧
    SubCompositorInterface.Private.subsurface (World.initial 4) Mode.Synchronized 100 (some 7) 0 9 =
      (World.initial 4, [Event.postError (some 100) WlError.BAD_SURFACE]) ∧
    SubCompositorInterface.Private.subsurface (World.initial 4) Mode.Synchronized 100 (some 7) 1 1 =
      (World.initial 4, [Event.postError (some 100) WlError.BAD_SURFACE]) :=
  ⟨subsurface_bad_surface _ _ _ _ _ _ (Or.inl (by decide)),
   subsurface_bad_surface _ _ _ _ _ _ (Or.inr (Or.inl (by decide))),
   subsurface_bad_surface _ _ _ _ _ _ (Or.inr (Or.inr (by decide)))⟩

/-- C3 as stated fails: the handles 0 and 1 resolve to the live, distinct
surfaces 0 and 1, yet when `wl_resource_create` returns null the request emits
no `subSurfaceCreated` at all, only the no-memory post, and the parent's child
sequence stays empty. -/
theorem subsurface_valid_pair_can_fail :
    SurfaceInterface.get (World.initial 2) 0 = some 0 ∧
    SurfaceInterface.get (World.initial 2) 1 = some 1 ∧
    (SubCompositorInterface.Private.subsurface (World.initial 2) Mode.Synchronized 100 none 0 1).2 =
      [Event.postNoMemory 100] ∧
    (¬ ∃ s, Event.subSurfaceCreated s ∈
      (SubCompositorInterface.Private.subsurface (World.initial 2) Mode.Synchronized 100 none 0 1).2) ∧
    (SubCompositorInterface.Private.subsurface (World.initial 2) Mode.Synchronized 100 none 0 1).1.childrenOf 1
      = [] := by
  have hev : (SubCompositorInterface.Private.subsurface (World.initial 2) Mode.Synchronized 100
      none 0 1).2 = [Event.postNoMemory 100] := by decide
  refine ⟨by decide, by decide, hev, ?_, by decide⟩
  rw [hev]
  simp

/-- A sub-surface index beyond the store names no role. -/
theorem isRoleOf_of_length_le (w : World) (x : SurfaceId) (t : SubSurfaceId)
    (h : w.subSurfaces.length ≤ t) : w.isRoleOf x t = false := by
  have h1 : w.subSurfaces[t]? = none := List.getElem?_eq_none h
  simp [World.isRoleOf, World.subSurface?, h1]

/-- In `World.oneChild` surface 2 holds no sub-surface role. -/
theorem oneChild_surface2_no_role : ∀ t, World.oneChild.isRoleOf 2 t = false := by
  intro t
  cases t with
  | zero => decide
  | succ n => exact isRoleOf_of_length_le _ _ _ (Nat.succ_le_succ (Nat.zero_le n))

/-- C3, amended: for live surfaces `surface ≠ parentSurface` in a well-formed
object graph, where the child holds no sub-surface role yet (no live
sub-surface has it as its surface), when `wl_resource_create` yields a resource
the request emits exactly `subSurfaceCreated(s)` for the new sub-surface `s`,
whose `surface()` is the child and whose `parentSurface()` is the parent; the
parent's child sequence is the old one with `s` appended as last (topmost)
entry, and the child appears in it exactly once: `s` is the one and only entry
that is a role of the child, and it occurs once. -/
theorem subsurface_created (w : World) (mode0 : Mode) (resource r : ResourceId)
    (nativeSurface nativeParentSurface surface parentSurface : SurfaceId)
    (hwf : w.WF)
    (hs : SurfaceInterface.get w nativeSurface = some surface)
    (hp : SurfaceInterface.get w nativeParentSurface = some parentSurface)
    (hne : surface ≠ parentSurface)
    (hrole : ∀ t, w.isRoleOf surface t = false) :
    (SubCompositorInterface.Private.subsurface w mode0 resource (some r) nativeSurface
        nativeParentSurface).2 = [Event.subSurfaceCreated w.subSurfaces.length] ∧
    SubSurfaceInterface.surface
      (SubCompositorInterface.Private.subsurface w mode0 resource (some r) nativeSurface
        nativeParentSurface).1 w.subSurfaces.length = some surface ∧
    SubSurfaceInterface.parentSurface
      (SubCompositorInterface.Private.subsurface w mode0 resource (some r) nativeSurface
        nativeParentSurface).1 w.subSurfaces.length = some parentSurface ∧
    (SubCompositorInterface.Private.subsurface w mode0 resource (some r) nativeSurface
        nativeParentSurface).1.childrenOf parentSurface =
      w.childrenOf parentSurface ++ [w.subSurfaces.length] ∧
    ((SubCompositorInterface.Private.subsurface w mode0 resource (some r) nativeSurface
        nativeParentSurface).1.childrenOf parentSurface).filter
      ((SubCompositorInterface.Private.subsurface w mode0 resource (some r) nativeSurface
        nativeParentSurface).1.isRoleOf surface) = [w.subSurfaces.length] ∧
    ((SubCompositorInterface.Private.subsurface w mode0 resource (some r) nativeSurface
        nativeParentSurface).1.childrenOf parentSurface).count w.subSurfaces.length = 1 := by
  obtain ⟨-, Ss, hSs⟩ := get_eq_some w _ _ hs
  obtain ⟨-, Sp, hSp⟩ := get_eq_some w _ _ hp
  have hbound := (hwf.1 parentSurface (surface?_lt hSp) Sp hSp).2
  have hnotin : w.subSurfaces.length ∉ Sp.children := fun hmem =>
    Nat.lt_irrefl _ (hbound _ hmem)
  have hSp0 : ∀ l, World.surface? { surfaces := w.surfaces, subSurfaces := l } parentSurface
      = some Sp := fun _ => hSp
  have hSs0 : ∀ l, World.surface? { surfaces := w.surfaces, subSurfaces := l } surface
      = some Ss := fun _ => hSs
  rw [subsurface_some w mode0 resource r _ _ _ _ hs hp hne]
  obtain ⟨W, hW⟩ : ∃ W : World, W = World.modifySurface
        (World.modifySurface
          { w with subSurfaces := w.subSurfaces ++
            [some { SubSurfaceInterface.Private.new w.subSurfaces.length mode0 with
              subSurface := some r, surface := some surface, parent := some parentSurface }] }
          surface fun S => { S with subSurface := some w.subSurfaces.length })
        parentSurface fun S => S.addChild w.subSurfaces.length := ⟨_, rfl⟩
  rw [← hW]
  have hstore : W.subSurfaces = w.subSurfaces ++
            [some { SubSurfaceInterface.Private.new w.subSurfaces.length mode0 with
              subSurface := some r, surface := some surface, parent := some parentSurface }] := by
    rw [hW, modifySurface_subSurfaces, modifySurface_subSurfaces]
  have hsurfP : W.surface? parentSurface = some (Sp.addChild w.subSurfaces.length) := by
    rw [hW]
    simp only [modifySurface_surface?, Ne.symm hne, if_false, if_true, hSp0, Option.map]
  have hsurfS : (W.surface? surface).isSome = true := by
    rw [hW]
    simp only [modifySurface_surface?, hne, if_false, if_true, hSs0, Option.map, Option.isSome]
  have hsub1 := (subSurface?_congr hstore w.subSurfaces.length).trans
    (subSurface?_append_last w.surfaces _ _)
  have hold : ∀ t, t ≠ w.subSurfaces.length → W.subSurface? t = w.subSurface? t :=
    fun t ht => (subSurface?_congr hstore t).trans (subSurface?_append_lt w.surfaces _ _ t ht)
  have hch : W.childrenOf parentSurface = Sp.children ++ [w.subSurfaces.length] := by
    simp only [World.childrenOf, hsurfP, SurfaceInterface.Private.addChild]
  refine ⟨rfl, ?_, ?_, ?_, ?_, ?_⟩
  · simp only [SubSurfaceInterface.surface, hsub1, Option.bind, World.data, hsurfS, if_true]
  · simp only [SubSurfaceInterface.parentSurface, hsub1, Option.bind, World.data, hsurfP,
      Option.isSome, if_true]
  · rw [hch]
    simp only [World.childrenOf, hSp]
  · rw [hch, List.filter_append]
    have h1 : List.filter (W.isRoleOf surface) Sp.children = [] := by
      rw [List.filter_eq_nil_iff]
      intro t ht
      have := hrole t
      unfold World.isRoleOf at this ⊢
      rw [hold t (Nat.ne_of_lt (hbound t ht))]
      simp [this]
    rw [h1]
    simp [World.isRoleOf, hsub1]
  · rw [hch]
    simp [List.count_append, List.count_eq_zero_of_not_mem hnotin]

/-- Witness of C3: in the graph where surface 0 is a child of surface 1 and
surface 2 holds no role, surface 2 is made a child of surface 1 and ends up
topmost, after entry 0, as the only role of surface 2. -/
theorem subsurface_created_witness :
    World.oneChild.WF ∧
    (∀ t, World.oneChild.isRoleOf 2 t = false) ∧
    (SubCompositorInterface.Private.subsurface World.oneChild Mode.Synchronized 100 (some 8)
        2 1).1.childrenOf 1 = [0, 1] ∧
    ((SubCompositorInterface.Private.subsurface World.oneChild Mode.Synchronized 100 (some 8)
        2 1).1.childrenOf 1).filter
      ((SubCompositorInterface.Private.subsurface World.oneChild Mode.Synchronized 100 (some 8)
        2 1).1.isRoleOf 2) = [1] :=
  ⟨by decide, oneChild_surface2_no_role,
   (subsurface_created World.oneChild Mode.Synchronized 100 8 2 1 2 1 (by decide) (by decide)
      (by decide) (by decide) oneChild_surface2_no_role).2.2.2.1,
   (subsurface_created World.oneChild Mode.Synchronized 100 8 2 1 2 1 (by decide) (by decide)
      (by decide) (by decide) oneChild_surface2_no_role).2.2.2.2.1⟩

/-- The object graph a creation request that runs out of memory ends in. -/
theorem subsurface_none (w : World) (mode0 : Mode) (resource : ResourceId)
    (nativeSurface nativeParentSurface surface parentSurface : SurfaceId)
    (hs : SurfaceInterface.get w nativeSurface = some surface)
    (hp : SurfaceInterface.get w nativeParentSurface = some parentSurface)
    (hne : surface ≠ parentSurface) :
    SubCompositorInterface.Private.subsurface w mode0 resource none nativeSurface
      nativeParentSurface =
      ({ w with subSurfaces := w.subSurfaces ++ [none] }, [Event.postNoMemory resource]) := by
  unfold SubCompositorInterface.Private.subsurface
  simp only [hs, hp, hne, if_false]
  rw [create_none]
  simp only [subSurface?_append_last, Option.bind, SubSurfaceInterface.Private.new,
    SubSurfaceInterface.Private.destructor, World.data, set_append_last]

/-- C10: when `wl_resource_create` fails for live surfaces
`surface ≠ parentSurface`, the only thing emitted is the no-memory post on the
requesting resource (no `subSurfaceCreated`); the in-progress sub-surface, which
would have had the next index, is deleted again; every surface (the parent's
child sequence and the child's back-reference among them) and every earlier
sub-surface is as before the request. -/
theorem subsurface_no_memory (w : World) (mode0 : Mode) (resource : ResourceId)
    (nativeSurface nativeParentSurface surface parentSurface : SurfaceId)
    (hs : SurfaceInterface.get w nativeSurface = some surface)
    (hp : SurfaceInterface.get w nativeParentSurface = some parentSurface)
    (hne : surface ≠ parentSurface) :
    (SubCompositorInterface.Private.subsurface w mode0 resource none nativeSurface
        nativeParentSurface).2 = [Event.postNoMemory resource] ∧
    (SubCompositorInterface.Private.subsurface w mode0 resource none nativeSurface
        nativeParentSurface).1.surfaces = w.surfaces ∧
    (SubCompositorInterface.Private.subsurface w mode0 resource none nativeSurface
        nativeParentSurface).1.subSurfaces = w.subSurfaces ++ [none] ∧
    (∀ i, (SubCompositorInterface.Private.subsurface w mode0 resource none nativeSurface
        nativeParentSurface).1.subSurface? i = w.subSurface? i) ∧
    (SubCompositorInterface.Private.subsurface w mode0 resource none nativeSurface
        nativeParentSurface).1.childrenOf parentSurface = w.childrenOf parentSurface ∧
    ((SubCompositorInterface.Private.subsurface w mode0 resource none nativeSurface
        nativeParentSurface).1.surface? surface).map (fun S => S.subSurface) =
      (w.surface? surface).map (fun S => S.subSurface) := by
  rw [subsurface_none w mode0 resource _ _ _ _ hs hp hne]
  refine ⟨rfl, rfl, rfl, ?_, rfl, rfl⟩
  intro i
  by_cases hi : i = w.subSurfaces.length
  · subst hi
    rw [subSurface?_append_last]
    simp [World.subSurface?]
  · exact subSurface?_append_lt _ _ _ _ hi

/-- Witness of C10: allocation fails while surface 2 is being made a child of
surface 1, which already has the child 0. -/
theorem subsurface_no_memory_witness :
    SurfaceInterface.get World.oneChild 2 = some 2 ∧
    SurfaceInterface.get World.oneChild 1 = some 1 ∧
    (SubCompositorInterface.Private.subsurface World.oneChild Mode.Synchronized 100 none
        2 1).2 = [Event.postNoMemory 100] ∧
    (SubCompositorInterface.Private.subsurface World.oneChild Mode.Synchronized 100 none
        2 1).1.surfaces = World.oneChild.surfaces :=
  ⟨by decide, by decide,
   (subsurface_no_memory World.oneChild Mode.Synchronized 100 2 1 2 1 (by decide) (by decide)
      (by decide)).1,
   (subsurface_no_memory World.oneChild Mode.Synchronized 100 2 1 2 1 (by decide) (by decide)
      (by decide)).2.1⟩

/-! Well-formedness is an invariant -/

/-- A non-null `QPointer` holds the index of a live surface. -/
theorem data_eq_some {w : World} {ptr : Option SurfaceId} {p : SurfaceId}
    (h : w.data ptr = some p) : ptr = some p ∧ (w.surface? p).isSome = true := by
  unfold World.data at h
  cases ptr with
  | none => simp at h
  | some x =>
    simp only [Option.bind] at h
    split at h
    · next hl => cases h; exact ⟨rfl, hl⟩
    · cases h

/-- No neighbour, no splice. -/
theorem spliceAfter_none (f : SubSurfaceId → Bool) (q : SubSurfaceId) (l : List SubSurfaceId)
    (h : ∀ t ∈ l, f t = false) : spliceAfter f q l = none := by
  induction l with
  | nil => rfl
  | cons t ts ih =>
    have h1 : f t = false := h t (List.mem_cons_self _ _)
    have h2 := ih fun u hu => h u (List.mem_cons_of_mem _ hu)
    simp [spliceAfter, h1, h2]

/-- No neighbour, no splice (below). -/
theorem spliceBefore_none (f : SubSurfaceId → Bool) (q : SubSurfaceId) (l : List SubSurfaceId)
    (h : ∀ t ∈ l, f t = false) : spliceBefore f q l = none := by
  induction l with
  | nil => rfl
  | cons t ts ih =>
    have h1 : f t = false := h t (List.mem_cons_self _ _)
    have h2 := ih fun u hu => h u (List.mem_cons_of_mem _ hu)
    simp [spliceBefore, h1, h2]

/-- With a null parent `placeAbove` returns at once. -/
theorem placeAbove_null_parent (w : World) (q : SubSurfaceId) (d : SubSurfaceInterface.Private)
    (sibling : Option SurfaceId) (hq : w.subSurface? q = some d) (hnull : w.data d.parent = none) :
    SubSurfaceInterface.Private.placeAbove w q sibling = (w, []) := by
  unfold SubSurfaceInterface.Private.placeAbove
  simp only [hq, hnull]

/-- With a null parent `placeBelow` returns at once. -/
theorem placeBelow_null_parent (w : World) (q : SubSurfaceId) (d : SubSurfaceInterface.Private)
    (sibling : Option SurfaceId) (hq : w.subSurface? q = some d) (hnull : w.data d.parent = none) :
    SubSurfaceInterface.Private.placeBelow w q sibling = (w, []) := by
  unfold SubSurfaceInterface.Private.placeBelow
  simp only [hq, hnull]

/-- Dropping the entries equal to `q` from a sequence that lists `q` once. -/
theorem filter_ne_split (q : SubSurfaceId) (l1 l2 : List SubSurfaceId)
    (h1 : q ∉ l1) (h2 : q ∉ l2) :
    (l1 ++ q :: l2).filter (fun t => t ≠ q) = l1 ++ l2 := by
  have e1 : l1.filter (fun t => decide (t ≠ q)) = l1 :=
    List.filter_eq_self.mpr fun t ht => by
      have : t ≠ q := fun h => h1 (h ▸ ht)
      simp [this]
  have e2 : l2.filter (fun t => decide (t ≠ q)) = l2 :=
    List.filter_eq_self.mpr fun t ht => by
      have : t ≠ q := fun h => h2 (h ▸ ht)
      simp [this]
  rw [List.filter_append, List.filter_cons, e1, e2]
  simp

/-- The lookup of a surface depends on the surface store only. -/
theorem surface?_congr {w1 w2 : World} (h : w1.surfaces = w2.surfaces)
    (i : SurfaceId) : w1.surface? i = w2.surface? i := by
  unfold World.surface?
  rw [h]

/-- Well-formedness without the index bounds. -/
theorem wf_iff (w : World) :
    w.WF ↔
      (∀ p S, w.surface? p = some S →
        S.children.Nodup ∧ ∀ t ∈ S.children, t < w.subSurfaces.length) ∧
      (∀ q d, w.subSurface? q = some d →
        (∀ p S, d.parent = some p → w.surface? p = some S → q ∈ S.children) ∧
        (∀ c, d.surface = some c → d.parent ≠ some c)) := by
  unfold World.WF
  constructor
  · rintro ⟨h1, h2⟩
    refine ⟨fun p S hS => h1 p (surface?_lt hS) S hS, fun q d hd => ?_⟩
    have := h2 q (subSurface?_lt hd) d hd
    exact ⟨fun p S hp hS => this.1 p hp S hS, fun c hc => this.2 c hc⟩
  · rintro ⟨h1, h2⟩
    refine ⟨fun p _ S hS => h1 p S hS, fun q _ d hd => ?_⟩
    have := h2 q d hd
    exact ⟨fun p hp S hS => this.1 p S hp hS, fun c hc => this.2 c hc⟩

/-- The initial object graph is well formed. -/
theorem initial_wf (n : Nat) : (World.initial n).WF := by
  rw [wf_iff]
  constructor
  · intro p S hS
    have := surface?_eq_some hS
    simp only [World.initial] at this
    rw [List.getElem?_replicate] at this
    split at this
    · cases this
      simp
    · cases this
  · intro q d hd
    have := subSurface?_lt hd
    simp [World.initial] at this

/-- Destroying a surface keeps the object graph well formed. -/
theorem destroySurface_wf (w : World) (p : SurfaceId) (hwf : w.WF) :
    (w.destroySurface p).WF := by
  rw [wf_iff] at hwf ⊢
  have hsurf : ∀ j S, (w.destroySurface p).surface? j = some S → w.surface? j = some S := by
    intro j S h
    unfold World.destroySurface at h
    rw [surface?_set] at h
    split at h
    · cases h
    · exact h
  refine ⟨fun j S hS => hwf.1 j S (hsurf j S hS), fun q d hd => ?_⟩
  have := hwf.2 q d hd
  exact ⟨fun j S hj hS => this.1 j S hj (hsurf j S hS), this.2⟩

/-- Lookup of a sub-surface after one slot of the sub-surface store was overwritten. -/
theorem subSurface?_set (w : World) (i j : SubSurfaceId) (o : Option SubSurfaceInterface.Private)
    (sf : List (Option SurfaceInterface.Private)) :
    World.subSurface? { surfaces := sf, subSurfaces := w.subSurfaces.set i o } j =
      if j = i ∧ i < w.subSurfaces.length then o else w.subSurface? j := by
  unfold World.subSurface?
  by_cases hj : i = j
  · subst hj
    by_cases hi : i < w.subSurfaces.length
    · simp [hi, List.getElem?_set_self hi]
    · have h0 : (w.subSurfaces.set i o).length ≤ i := by
        rw [List.length_set]
        exact Nat.le_of_not_lt hi
      have h1 : (w.subSurfaces.set i o)[i]? = none := List.getElem?_eq_none h0
      simp [hi, h1, List.getElem?_eq_none (Nat.le_of_not_lt hi)]
  · have : ¬ (j = i ∧ i < w.subSurfaces.length) := fun h => hj h.1.symm
    simp [this, List.getElem?_set_ne hj]

/-- A method that keeps `parent` and `surface` keeps the object graph well formed. -/
theorem onSubSurface_wf (w : World) (q : SubSurfaceId)
    (f : SubSurfaceInterface.Private → SubSurfaceInterface.Private × List Event)
    (hf : ∀ d, (f d).1.parent = d.parent ∧ (f d).1.surface = d.surface) (hwf : w.WF) :
    (w.onSubSurface q f).1.WF := by
  unfold World.onSubSurface
  split
  · exact hwf
  · next d hd =>
    rw [wf_iff] at hwf ⊢
    simp only [World.setSubSurface]
    have hlen : (w.subSurfaces.set q (some (f d).1)).length = w.subSurfaces.length :=
      List.length_set _ _ _
    refine ⟨fun p S hS => ?_, fun t e he => ?_⟩
    · have := hwf.1 p S hS
      exact ⟨this.1, fun u hu => by rw [hlen]; exact this.2 u hu⟩
    · rw [subSurface?_set] at he
      split at he
      · next h =>
        cases he
        obtain ⟨rfl, -⟩ := h
        have := hwf.2 t d hd
        rw [(hf d).1, (hf d).2]
        exact ⟨fun p S hp hS => this.1 p S hp hS, this.2⟩
      · have := hwf.2 t e he
        exact ⟨fun p S hp hS => this.1 p S hp hS, this.2⟩

/-- A splice above only rearranges. -/
theorem spliceAfter_perm (f : SubSurfaceId → Bool) (q : SubSurfaceId) :
    ∀ (l l' : List SubSurfaceId), spliceAfter f q l = some l' → l'.Perm (q :: l) := by
  intro l
  induction l with
  | nil => intro l' h; cases h
  | cons t ts ih =>
    intro l' h
    unfold spliceAfter at h
    split at h
    · cases h
      exact List.Perm.swap q t ts
    · cases hrec : spliceAfter f q ts with
      | none => simp [hrec] at h
      | some m =>
        simp [hrec] at h
        subst h
        exact ((ih m hrec).cons t).trans (List.Perm.swap q t ts)

/-- A splice below only rearranges. -/
theorem spliceBefore_perm (f : SubSurfaceId → Bool) (q : SubSurfaceId) :
    ∀ (l l' : List SubSurfaceId), spliceBefore f q l = some l' → l'.Perm (q :: l) := by
  intro l
  induction l with
  | nil => intro l' h; cases h
  | cons t ts ih =>
    intro l' h
    unfold spliceBefore at h
    split at h
    · cases h
      exact List.Perm.refl _
    · cases hrec : spliceBefore f q ts with
      | none => simp [hrec] at h
      | some m =>
        simp [hrec] at h
        subst h
        exact ((ih m hrec).cons t).trans (List.Perm.swap q t ts)

/-- The sequence after `raiseChild` is a rearrangement of the one before. -/
theorem raiseChild_perm (w : World) (p : SurfaceId) (S : SurfaceInterface.Private)
    (q : SubSurfaceId) (sibling : Option SurfaceId) :
    (S.raiseChild w p q sibling).2.children.Perm S.children := by
  unfold SurfaceInterface.Private.raiseChild
  split
  · next hmem =>
    split
    · exact List.Perm.refl _
    · split
      · exact List.perm_append_comm.trans (List.perm_cons_erase hmem).symm
      · split
        · next l hl => exact (spliceAfter_perm _ _ _ _ hl).trans (List.perm_cons_erase hmem).symm
        · exact List.Perm.refl _
  · exact List.Perm.refl _

/-- The sequence after `lowerChild` is a rearrangement of the one before. -/
theorem lowerChild_perm (w : World) (p : SurfaceId) (S : SurfaceInterface.Private)
    (q : SubSurfaceId) (sibling : Option SurfaceId) :
    (S.lowerChild w p q sibling).2.children.Perm S.children := by
  unfold SurfaceInterface.Private.lowerChild
  split
  · next hmem =>
    split
    · exact List.Perm.refl _
    · split
      · exact (List.perm_cons_erase hmem).symm
      · split
        · next l hl => exact (spliceBefore_perm _ _ _ _ hl).trans (List.perm_cons_erase hmem).symm
        · exact List.Perm.refl _
  · exact List.Perm.refl _

/-- Replacing the child sequence of one surface by a permutation of it keeps
the object graph well formed. -/
theorem restack_wf (w : World) (p : SurfaceId) (S S' : SurfaceInterface.Private)
    (hS : w.surface? p = some S) (hperm : S'.children.Perm S.children) (hwf : w.WF) :
    World.WF { w with surfaces := w.surfaces.set p (some S') } := by
  rw [wf_iff] at hwf ⊢
  refine ⟨fun j T hT => ?_, fun t e he => ?_⟩
  · rw [surface?_set] at hT
    split at hT
    · cases hT
      have := hwf.1 p S hS
      exact ⟨hperm.nodup_iff.mpr this.1, fun u hu => this.2 u (hperm.mem_iff.mp hu)⟩
    · exact hwf.1 j T hT
  · have := hwf.2 t e he
    refine ⟨fun j T hj hT => ?_, this.2⟩
    rw [surface?_set] at hT
    split at hT
    · next h =>
      cases hT
      obtain ⟨rfl, -⟩ := h
      exact hperm.mem_iff.mpr (this.1 j S hj hS)
    · exact this.1 j T hj hT

/-- Restacking above a sibling keeps the object graph well formed. -/
theorem placeAbove_wf (w : World) (q : SubSurfaceId) (sibling : Option SurfaceId)
    (hwf : w.WF) : (SubSurfaceInterface.Private.placeAbove w q sibling).1.WF := by
  unfold SubSurfaceInterface.Private.placeAbove
  split
  · exact hwf
  · split
    · exact hwf
    · split
      · exact hwf
      · next S hS =>
        dsimp only
        split <;> exact restack_wf w _ S _ hS (raiseChild_perm _ _ _ _ _) hwf

/-- Restacking below a sibling keeps the object graph well formed. -/
theorem placeBelow_wf (w : World) (q : SubSurfaceId) (sibling : Option SurfaceId)
    (hwf : w.WF) : (SubSurfaceInterface.Private.placeBelow w q sibling).1.WF := by
  unfold SubSurfaceInterface.Private.placeBelow
  split
  · exact hwf
  · split
    · exact hwf
    · split
      · exact hwf
      · next S hS =>
        dsimp only
        split <;> exact restack_wf w _ S _ hS (lowerChild_perm _ _ _ _ _) hwf

/-- Destroying a sub-surface keeps the object graph well formed. -/
theorem destructor_wf (w : World) (q : SubSurfaceId) (hwf : w.WF) :
    (SubSurfaceInterface.Private.destructor w q).1.WF := by
  unfold SubSurfaceInterface.Private.destructor
  split
  · exact hwf
  · next d hd =>
    rw [wf_iff] at hwf ⊢
    dsimp only
    have hsurf : ∀ (w1 : World), w1 = (match w.data d.parent with
          | some p => w.modifySurface p fun S => S.removeChild q
          | none => w) →
        w1.subSurfaces = w.subSurfaces ∧
        ∀ j T, w1.surface? j = some T → ∃ S, w.surface? j = some S ∧
          (T = S ∨ (d.parent = some j ∧ T = S.removeChild q)) := by
      intro w1 hw1
      cases hp : w.data d.parent with
      | none =>
        rw [hp] at hw1
        subst hw1
        exact ⟨rfl, fun j T hT => ⟨T, hT, Or.inl rfl⟩⟩
      | some p =>
        rw [hp] at hw1
        subst hw1
        refine ⟨modifySurface_subSurfaces _ _ _, fun j T hT => ?_⟩
        rw [modifySurface_surface?] at hT
        split at hT
        · next hj =>
          subst hj
          cases hS : w.surface? j with
          | none => simp [hS] at hT
          | some S =>
            simp only [hS, Option.map, Option.some.injEq] at hT
            exact ⟨S, rfl, Or.inr ⟨(data_eq_some hp).1, hT.symm⟩⟩
        · exact ⟨T, hT, Or.inl rfl⟩
    obtain ⟨hsub, hsf⟩ := hsurf _ rfl
    generalize (match w.data d.parent with
          | some p => w.modifySurface p fun S => S.removeChild q
          | none => w) = w1 at hsub hsf ⊢
    have hlen : (w1.subSurfaces.set q none).length = w.subSurfaces.length := by
      rw [List.length_set, hsub]
    refine ⟨fun j T hT => ?_, fun t e he => ?_⟩
    · obtain ⟨S, hS, hT'⟩ := hsf j T hT
      have := hwf.1 j S hS
      rcases hT' with rfl | ⟨-, rfl⟩
      · exact ⟨this.1, fun u hu => by rw [hlen]; exact this.2 u hu⟩
      · refine ⟨this.1.filter _, fun u hu => ?_⟩
        rw [hlen]
        exact this.2 u (List.mem_of_mem_filter hu)
    · rw [subSurface?_set] at he
      split at he
      · cases he
      · next hne =>
        have he' : w.subSurface? t = some e := by
          rw [← he]
          exact (subSurface?_congr hsub t).symm
        have htq : t ≠ q := fun h => hne ⟨h, by rw [hsub]; exact h ▸ subSurface?_lt he'⟩
        have := hwf.2 t e he'
        refine ⟨fun j T hj hT => ?_, this.2⟩
        obtain ⟨S, hS, hT'⟩ := hsf j T hT
        have hmem := this.1 j S hj hS
        rcases hT' with rfl | ⟨-, rfl⟩
        · exact hmem
        · simp only [SurfaceInterface.Private.removeChild]
          exact List.mem_filter.mpr ⟨hmem, by simp [htq]⟩

/-- The creation request keeps the object graph well formed, on each of its paths. -/
theorem subsurface_wf (w : World) (mode0 : Mode) (resource : ResourceId)
    (created : Option ResourceId) (nativeSurface nativeParentSurface : SurfaceId)
    (hwf : w.WF) :
    (SubCompositorInterface.Private.subsurface w mode0 resource created nativeSurface
      nativeParentSurface).1.WF := by
  cases hs : SurfaceInterface.get w nativeSurface with
  | none => rw [subsurface_rejects w mode0 resource created _ _ (Or.inl hs)]; exact hwf
  | some c =>
  cases hp : SurfaceInterface.get w nativeParentSurface with
  | none => rw [subsurface_rejects w mode0 resource created _ _ (Or.inr (Or.inl hp))]; exact hwf
  | some p =>
  by_cases hne : c = p
  · rw [subsurface_rejects w mode0 resource created _ _
      (Or.inr (Or.inr (by rw [hs, hp, hne])))]
    exact hwf
  · cases created with
    | none =>
      rw [subsurface_none w mode0 resource _ _ _ _ hs hp hne]
      rw [wf_iff] at hwf ⊢
      have hsame : ∀ t, World.subSurface?
          { surfaces := w.surfaces, subSurfaces := w.subSurfaces ++ [none] } t =
          w.subSurface? t := by
        intro t
        by_cases ht : t = w.subSurfaces.length
        · subst ht
          rw [subSurface?_append_last]
          simp [World.subSurface?]
        · exact subSurface?_append_lt _ _ _ _ ht
      refine ⟨fun j T hT => ?_, fun t e he => ?_⟩
      · have := hwf.1 j T hT
        refine ⟨this.1, fun u hu => ?_⟩
        simp only [List.length_append, List.length_singleton]
        exact Nat.lt_succ_of_lt (this.2 u hu)
      · rw [hsame] at he
        have := hwf.2 t e he
        exact ⟨fun j T hj hT => this.1 j T hj hT, this.2⟩
    | some r =>
      rw [subsurface_some w mode0 resource r _ _ _ _ hs hp hne]
      obtain ⟨-, Sp, hSp⟩ := get_eq_some w _ _ hp
      obtain ⟨W, hW⟩ : ∃ W : World, W = World.modifySurface
            (World.modifySurface
              { w with subSurfaces := w.subSurfaces ++
                [some { SubSurfaceInterface.Private.new w.subSurfaces.length mode0 with
                  subSurface := some r, surface := some c, parent := some p }] }
              c fun S => { S with subSurface := some w.subSurfaces.length })
            p fun S => S.addChild w.subSurfaces.length := ⟨_, rfl⟩
      rw [← hW]
      have hstore : W.subSurfaces = w.subSurfaces ++
            [some { SubSurfaceInterface.Private.new w.subSurfaces.length mode0 with
              subSurface := some r, surface := some c, parent := some p }] := by
        rw [hW, modifySurface_subSurfaces, modifySurface_subSurfaces]
      have hsub1 := (subSurface?_congr hstore w.subSurfaces.length).trans
        (subSurface?_append_last w.surfaces _ _)
      have hold : ∀ t, t ≠ w.subSurfaces.length → W.subSurface? t = w.subSurface? t :=
        fun t ht => (subSurface?_congr hstore t).trans (subSurface?_append_lt w.surfaces _ _ t ht)
      have hsf : ∀ j T, W.surface? j = some T → ∃ S, w.surface? j = some S ∧
          (T.children = S.children ∨ (j = p ∧ T.children = S.children ++ [w.subSurfaces.length])) := by
        intro j T hT
        rw [hW, modifySurface_surface?] at hT
        split at hT
        · next hj =>
          subst hj
          rw [modifySurface_surface?] at hT
          simp only [Ne.symm hne, if_false] at hT
          have : World.surface? { surfaces := w.surfaces, subSurfaces := w.subSurfaces ++
                [some { SubSurfaceInterface.Private.new w.subSurfaces.length mode0 with
                  subSurface := some r, surface := some c, parent := some j }] } j = some Sp := hSp
          rw [this] at hT
          simp only [Option.map, Option.some.injEq] at hT
          exact ⟨Sp, hSp, Or.inr ⟨rfl, by rw [← hT]; rfl⟩⟩
        · rw [modifySurface_surface?] at hT
          split at hT
          · next hj =>
            subst hj
            cases hS : w.surface? j with
            | none =>
              have : World.surface? { surfaces := w.surfaces, subSurfaces := w.subSurfaces ++
                [some { SubSurfaceInterface.Private.new w.subSurfaces.length mode0 with
                  subSurface := some r, surface := some j, parent := some p }] } j = none := hS
              rw [this] at hT
              cases hT
            | some S =>
              have : World.surface? { surfaces := w.surfaces, subSurfaces := w.subSurfaces ++
                [some { SubSurfaceInterface.Private.new w.subSurfaces.length mode0 with
                  subSurface := some r, surface := some j, parent := some p }] } j = some S := hS
              rw [this] at hT
              simp only [Option.map, Option.some.injEq] at hT
              exact ⟨S, rfl, Or.inl (by rw [← hT])⟩
          · exact ⟨T, hT, Or.inl rfl⟩
      rw [wf_iff] at hwf ⊢
      have hlen : W.subSurfaces.length = w.subSurfaces.length + 1 := by
        rw [hstore]
        simp
      refine ⟨fun j T hT => ?_, fun t e he => ?_⟩
      · obtain ⟨S, hS, hT'⟩ := hsf j T hT
        have := hwf.1 j S hS
        rcases hT' with h | ⟨-, h⟩
        · rw [h, hlen]
          exact ⟨this.1, fun u hu => Nat.lt_succ_of_lt (this.2 u hu)⟩
        · rw [h, hlen]
          refine ⟨?_, fun u hu => ?_⟩
          · refine List.Nodup.append this.1 (List.nodup_singleton _) ?_
            intro u hu hu'
            rw [List.mem_singleton] at hu'
            subst hu'
            exact Nat.lt_irrefl _ (this.2 _ hu)
          · rcases List.mem_append.mp hu with hu | hu
            · exact Nat.lt_succ_of_lt (this.2 u hu)
            · rw [List.mem_singleton] at hu
              subst hu
              exact Nat.lt_succ_self _
      · by_cases ht : t = w.subSurfaces.length
        · subst ht
          rw [hsub1] at he
          cases he
          refine ⟨fun j T hj hT => ?_, fun x hx => ?_⟩
          · obtain ⟨S, hS, hT'⟩ := hsf j T hT
            have hjp : j = p := by
              simp only [SubSurfaceInterface.Private.new] at hj
              exact (Option.some.inj hj).symm
            subst hjp
            have hself : w.subSurfaces.length ∉ S.children := fun hm =>
              Nat.lt_irrefl _ ((hwf.1 j S hS).2 _ hm)
            rcases hT' with h | ⟨-, h⟩
            · exfalso
              apply hself
              rw [← h]
              have hg : W.surface? j = some (S.addChild w.subSurfaces.length) := by
                rw [hW]
                simp only [modifySurface_surface?, Ne.symm hne, if_false, if_true, Option.map]
                have : World.surface? { surfaces := w.surfaces, subSurfaces := w.subSurfaces ++
                  [some { SubSurfaceInterface.Private.new w.subSurfaces.length mode0 with
                    subSurface := some r, surface := some c, parent := some j }] } j = some S := hS
                rw [this]
              rw [hg] at hT
              cases hT
              simp [SurfaceInterface.Private.addChild]
            · rw [h]
              simp
          · simp only [SubSurfaceInterface.Private.new] at hx ⊢
            cases hx
            intro h
            exact hne (Option.some.inj h).symm
        · rw [hold t ht] at he
          have := hwf.2 t e he
          refine ⟨fun j T hj hT => ?_, this.2⟩
          obtain ⟨S, hS, hT'⟩ := hsf j T hT
          have hmem := this.1 j S hj hS
          rcases hT' with h | ⟨-, h⟩
          · rw [h]; exact hmem
          · rw [h]; exact List.mem_append_left _ hmem

/-- Every request keeps the object graph well formed. -/
theorem step_wf (mode0 : Mode) (w : World) (r : Request) (hwf : w.WF) :
    (w.step mode0 r).1.WF := by
  cases r with
  | subsurface resource created nativeSurface nativeParentSurface =>
    exact subsurface_wf w mode0 resource created nativeSurface nativeParentSurface hwf
  | setPosition q p =>
    refine onSubSurface_wf w q _ (fun d => ?_) hwf
    unfold SubSurfaceInterface.Private.setPosition
    split <;> exact ⟨rfl, rfl⟩
  | commit q =>
    refine onSubSurface_wf w q _ (fun d => ?_) hwf
    unfold SubSurfaceInterface.Private.commit
    split <;> exact ⟨rfl, rfl⟩
  | setMode q m =>
    refine onSubSurface_wf w q _ (fun d => ?_) hwf
    unfold SubSurfaceInterface.Private.setMode
    split <;> exact ⟨rfl, rfl⟩
  | placeAbove q sibling => exact placeAbove_wf w q _ hwf
  | placeBelow q sibling => exact placeBelow_wf w q _ hwf
  | destroy q => exact destructor_wf w q hwf
  | destroySurface p => exact destroySurface_wf w p hwf

/-- Every object graph reached from live surfaces without sub-surfaces, by any
sequence of requests, is well formed. -/
theorem run_wf (mode0 : Mode) (n : Nat) (rs : List Request) :
    (World.run mode0 (World.initial n) rs).WF := by
  have key : ∀ (rs : List Request) (w : World), w.WF → (World.run mode0 w rs).WF := by
    intro rs
    induction rs with
    | nil => intro w hw; exact hw
    | cons r rs ih => intro w hw; exact ih _ (step_wf mode0 w r hw)
  exact key rs _ (initial_wf n)

/-! Roles, restacking and destruction: theorems -/

/-- C4, evaluated at the failing input: surface 0 already holds a sub-surface
role (sub-surface 0, child of surface 1, and the surface's back-reference
points to it).  A second creation request naming surface 0 as child, of parent
2, posts no error: it emits `subSurfaceCreated(1)`, and afterwards sub-surfaces
0 and 1 both have surface 0 as `surface()`, one listed by parent 1 and one by
parent 2.  With parent 1 named again the request is accepted as well and the
sequence of surface 1 then lists two roles of surface 0. -/
theorem second_role_is_accepted :
    (World.oneChild.surface? 0).map (fun S => S.subSurface) = some (some 0) ∧
    SubSurfaceInterface.surface World.oneChild 0 = some 0 ∧
    SubSurfaceInterface.parentSurface World.oneChild 0 = some 1 ∧
    (SubCompositorInterface.Private.subsurface World.oneChild Mode.Synchronized 100 (some 8)
        0 2).2 = [Event.subSurfaceCreated 1] ∧
    SubSurfaceInterface.surface (SubCompositorInterface.Private.subsurface World.oneChild
        Mode.Synchronized 100 (some 8) 0 2).1 0 = some 0 ∧
    SubSurfaceInterface.parentSurface (SubCompositorInterface.Private.subsurface World.oneChild
        Mode.Synchronized 100 (some 8) 0 2).1 0 = some 1 ∧
    SubSurfaceInterface.surface (SubCompositorInterface.Private.subsurface World.oneChild
        Mode.Synchronized 100 (some 8) 0 2).1 1 = some 0 ∧
    SubSurfaceInterface.parentSurface (SubCompositorInterface.Private.subsurface World.oneChild
        Mode.Synchronized 100 (some 8) 0 2).1 1 = some 2 ∧
    (SubCompositorInterface.Private.subsurface World.oneChild Mode.Synchronized 100 (some 8)
        0 2).1.childrenOf 1 = [0] ∧
    (SubCompositorInterface.Private.subsurface World.oneChild Mode.Synchronized 100 (some 8)
        0 2).1.childrenOf 2 = [1] ∧
    (SubCompositorInterface.Private.subsurface World.oneChild Mode.Synchronized 100 (some 8)
        0 1).2 = [Event.subSurfaceCreated 1] ∧
    (SubCompositorInterface.Private.subsurface World.oneChild Mode.Synchronized 100 (some 8)
        0 1).1.childrenOf 1 = [0, 1] ∧
    ((SubCompositorInterface.Private.subsurface World.oneChild Mode.Synchronized 100 (some 8)
        0 1).1.childrenOf 1).map
      (SubSurfaceInterface.surface (SubCompositorInterface.Private.subsurface World.oneChild
        Mode.Synchronized 100 (some 8) 0 1).1) = [some 0, some 0] := by
  decide

/-- C5, evaluated at the failing input: sub-surface 0 is live, its parent
(surface 1) has been destroyed so `parentSurface()` is null, and for every
sibling argument `placeAbove` and `placeBelow` return without posting anything:
no `BAD_SURFACE` error reaches the resource, and the state is unchanged. -/
theorem place_without_parent_posts_nothing :
    (World.orphan.subSurface? 0).isSome = true ∧
    SubSurfaceInterface.parentSurface World.orphan 0 = none ∧
    ∀ sibling : Option SurfaceId,
      SubSurfaceInterface.Private.placeAbove World.orphan 0 sibling = (World.orphan, []) ∧
      SubSurfaceInterface.Private.placeBelow World.orphan 0 sibling = (World.orphan, []) := by
  refine ⟨by decide, by decide, fun sibling => ?_⟩
  have hq : World.orphan.subSurface? 0 =
      some ⟨0, some 7, some 0, some 1, ⟨0, 0⟩, ⟨0, 0⟩, false, Mode.Synchronized⟩ := by decide
  exact ⟨placeAbove_null_parent _ _ _ _ hq (by decide),
    placeBelow_null_parent _ _ _ _ hq (by decide)⟩

/-- Restacking with a wrong sibling where the sub-surface is the only role of
its surface: in a well-formed object graph, for a sub-surface `q` with live
parent `p`, `placeAbove(x)` posts `BAD_SURFACE` on the sub-surface's resource
and leaves the whole object graph, the parent's child sequence included,
exactly as it was, both when `x` is the sub-surface's own surface (and `q` is
the only role of that surface in the parent's sequence) and when `x` is neither
the parent nor the surface of any entry of the parent's sequence. -/
theorem placeAbove_incorrect_sibling (w : World) (q : SubSurfaceId)
    (d : SubSurfaceInterface.Private) (p x : SurfaceId) (S : SurfaceInterface.Private)
    (hwf : w.WF) (hq : w.subSurface? q = some d) (hp : w.data d.parent = some p)
    (hS : w.surface? p = some S)
    (hx : (d.surface = some x ∧ ∀ t ∈ S.children, t ≠ q → w.isRoleOf x t = false) ∨
          (x ≠ p ∧ ∀ t ∈ S.children, w.isRoleOf x t = false)) :
    SubSurfaceInterface.Private.placeAbove w q (some x) =
      (w, [Event.postError d.subSurface WlError.BAD_SURFACE]) := by
  have hpar := (data_eq_some hp).1
  have hnodup := (hwf.1 p (surface?_lt hS) S hS).1
  have hxp : x ≠ p := by
    rcases hx with ⟨hc, -⟩ | ⟨h, -⟩
    · intro hxp
      subst hxp
      exact (hwf.2 q (subSurface?_lt hq) d hq).2 x hc hpar
    · exact h
  have hrest : ∀ t ∈ S.children.erase q, w.isRoleOf x t = false := by
    intro t ht
    rcases hx with ⟨-, h⟩ | ⟨-, h⟩
    · exact h t (List.mem_of_mem_erase ht) ((hnodup.mem_erase_iff.mp ht).1)
    · exact h t (List.mem_of_mem_erase ht)
  have hraise : S.raiseChild w p q (some x) = (false, S) := by
    unfold SurfaceInterface.Private.raiseChild
    split
    · simp only [hxp, if_false, spliceAfter_none _ _ _ hrest]
    · rfl
  unfold SubSurfaceInterface.Private.placeAbove
  simp only [hq, hp, hS, hraise]
  rw [set_same _ _ _ (surface?_eq_some hS)]
  simp

/-- Example of a wrong sibling: surface 1 has the children 0 (surface 0) and 1
(surface 2); sub-surface 0 names its own surface 0, and the unrelated surface 3,
as sibling. -/
theorem placeAbove_incorrect_sibling_witness :
    World.twoChildren.WF ∧
    World.twoChildren.childrenOf 1 = [0, 1] ∧
    SubSurfaceInterface.Private.placeAbove World.twoChildren 0 (some 0) =
      (World.twoChildren, [Event.postError (some 7) WlError.BAD_SURFACE]) ∧
    SubSurfaceInterface.Private.placeAbove World.twoChildren 0 (some 3) =
      (World.twoChildren, [Event.postError (some 7) WlError.BAD_SURFACE]) :=
  ⟨by decide, by decide,
   placeAbove_incorrect_sibling World.twoChildren 0
     ⟨0, some 7, some 0, some 1, ⟨0, 0⟩, ⟨0, 0⟩, false, Mode.Synchronized⟩ 1 0 ⟨none, [0, 1]⟩
     (by decide) (by decide) (by decide) (by decide) (Or.inl ⟨rfl, by decide⟩),
   placeAbove_incorrect_sibling World.twoChildren 0
     ⟨0, some 7, some 0, some 1, ⟨0, 0⟩, ⟨0, 0⟩, false, Mode.Synchronized⟩ 1 3 ⟨none, [0, 1]⟩
     (by decide) (by decide) (by decide) (by decide) (Or.inr ⟨by decide, by decide⟩)⟩

/-- C9: destroying sub-surface `q` in a well-formed object graph.  While the
parent `p` is live, its child sequence `l1 ++ q :: l2` becomes `l1 ++ l2`:
exactly one entry, the one of `q`, is gone, the other entries keep their order,
and no other surface changes.  When the parent is gone already, no surface is
touched at all.  Either way the destructor returns, `q` is no longer live, and
every other sub-surface is as before. -/
theorem destructor_detaches (w : World) (q : SubSurfaceId) (d : SubSurfaceInterface.Private)
    (hwf : w.WF) (hq : w.subSurface? q = some d) :
    (∀ p S, w.data d.parent = some p → w.surface? p = some S →
      ∃ l1 l2, S.children = l1 ++ q :: l2 ∧ q ∉ l1 ∧ q ∉ l2 ∧
        (SubSurfaceInterface.Private.destructor w q).1.childrenOf p = l1 ++ l2 ∧
        ((SubSurfaceInterface.Private.destructor w q).1.childrenOf p).length + 1 =
          S.children.length ∧
        ∀ p', p' ≠ p →
          (SubSurfaceInterface.Private.destructor w q).1.surface? p' = w.surface? p') ∧
    (w.data d.parent = none →
      (SubSurfaceInterface.Private.destructor w q).1.surfaces = w.surfaces) ∧
    (SubSurfaceInterface.Private.destructor w q).1.subSurface? q = none ∧
    (∀ t, t ≠ q → (SubSurfaceInterface.Private.destructor w q).1.subSurface? t = w.subSurface? t) := by
  refine ⟨?_, ?_, ?_, ?_⟩
  · intro p S hp hS
    have hpar := (data_eq_some hp).1
    have hnodup := (hwf.1 p (surface?_lt hS) S hS).1
    have hmem : q ∈ S.children := (hwf.2 q (subSurface?_lt hq) d hq).1 p hpar S hS
    obtain ⟨l1, l2, hl⟩ := List.append_of_mem hmem
    rw [hl] at hnodup
    have h1 : q ∉ l1 := fun h => by
      have := (List.nodup_append.mp hnodup).2.2
      exact this h (List.mem_cons_self _ _)
    have h2 : q ∉ l2 := (List.nodup_cons.mp (List.nodup_append.mp hnodup).2.1).1
    have hsurf : (SubSurfaceInterface.Private.destructor w q).1.surfaces =
        (w.modifySurface p fun S => S.removeChild q).surfaces := by
      unfold SubSurfaceInterface.Private.destructor
      simp only [hq, hp]
    have hch : (SubSurfaceInterface.Private.destructor w q).1.childrenOf p = l1 ++ l2 := by
      unfold World.childrenOf
      rw [surface?_congr hsurf p, modifySurface_surface?]
      simp only [if_true, hS, Option.map, SurfaceInterface.Private.removeChild, hl]
      exact filter_ne_split q l1 l2 h1 h2
    refine ⟨l1, l2, hl, h1, h2, hch, ?_, ?_⟩
    · rw [hch, hl]
      simp
      omega
    · intro p' hp'
      rw [surface?_congr hsurf p', modifySurface_surface?]
      simp [hp']
  · intro hnull
    unfold SubSurfaceInterface.Private.destructor
    simp only [hq, hnull]
  · unfold SubSurfaceInterface.Private.destructor
    simp only [hq]
    unfold World.subSurface?
    have hlt := subSurface?_lt hq
    split <;> simp [modifySurface_subSurfaces, List.getElem?_set_self, hlt]
  · intro t ht
    unfold SubSurfaceInterface.Private.destructor
    simp only [hq]
    unfold World.subSurface?
    split <;> simp [modifySurface_subSurfaces, List.getElem?_set_ne (Ne.symm ht)]

/-- Witness of C9: destroying sub-surface 0 of the two children of surface 1
leaves the sequence `[1]`; destroying the orphaned sub-surface 0, whose parent
is gone, leaves every surface alone. -/
theorem destructor_detaches_witness :
    World.twoChildren.WF ∧ World.orphan.WF ∧
    World.twoChildren.childrenOf 1 = [0, 1] ∧
    (SubSurfaceInterface.Private.destructor World.twoChildren 0).1.childrenOf 1 = [1] ∧
    (SubSurfaceInterface.Private.destructor World.orphan 0).1.surfaces = World.orphan.surfaces ∧
    (SubSurfaceInterface.Private.destructor World.twoChildren 0).1.subSurface? 0 = none :=
  ⟨by decide, by decide, by decide, by decide,
   (destructor_detaches World.orphan 0
     ⟨0, some 7, some 0, some 1, ⟨0, 0⟩, ⟨0, 0⟩, false, Mode.Synchronized⟩
     (by decide) (by decide)).2.1 (by decide),
   (destructor_detaches World.twoChildren 0
     ⟨0, some 7, some 0, some 1, ⟨0, 0⟩, ⟨0, 0⟩, false, Mode.Synchronized⟩
     (by decide) (by decide)).2.2.1⟩

/-! Resource release: theorems -/

/-- The destructor leaves a handle that was cleared before alone. -/
theorem life_destructor_cleared (l : SubSurfaceLife) (d : SubSurfaceInterface.Private)
    (hd : l.d = some d) (hnull : d.subSurface = none) :
    l.destructor.released = l.released ∧ l.destructor.d = none := by
  unfold SubSurfaceLife.destructor
  simp [hd, hnull]

/-- The destructor frees a live handle, once, and `unbind` has run by then. -/
theorem life_destructor_live (l : SubSurfaceLife) (d : SubSurfaceInterface.Private)
    (r : ResourceId) (hd : l.d = some d) (hr : d.subSurface = some r) :
    l.destructor.released = l.released ++ [r] ∧ l.destructor.d = none ∧
    (wl_resource_destroy l r).d = some { d with subSurface := none } := by
  unfold SubSurfaceLife.destructor wl_resource_destroy SubSurfaceInterface.Private.unbind
  simp [hd, hr]

/-- Every life event keeps the resource held-or-freed-once invariant. -/
theorem life_step_inv (r : ResourceId) (l : SubSurfaceLife) (e : LifeEvent)
    (h : l.Inv r) : (l.step r e).Inv r := by
  rcases h with ⟨hrel, d, hd, hr⟩ | ⟨hrel, hnull⟩
  · cases e with
    | destroyRequest =>
      left
      simp [SubSurfaceLife.step, hrel, SubSurfaceInterface.Private.destroyCallback, hd, hr]
    | resourceTeardown =>
      right
      simp [SubSurfaceLife.step, hrel, wl_resource_destroy, SubSurfaceInterface.Private.unbind, hd]
    | deferredDelete =>
      simp only [SubSurfaceLife.step, SubSurfaceLife.processDeferredDelete]
      split
      · right
        have := life_destructor_live l d r hd hr
        rw [this.1, this.2.1, hrel]
        simp
      · left
        exact ⟨hrel, d, hd, hr⟩
  · cases e with
    | destroyRequest =>
      right
      simp [SubSurfaceLife.step, hrel]
      exact hnull
    | resourceTeardown =>
      right
      simp [SubSurfaceLife.step, hrel]
      exact hnull
    | deferredDelete =>
      right
      simp only [SubSurfaceLife.step, SubSurfaceLife.processDeferredDelete]
      split
      · cases hd : l.d with
        | none =>
          simp [SubSurfaceLife.destructor, hd, hrel]
        | some d =>
          have := life_destructor_cleared l d hd (hnull d hd)
          rw [this.1, this.2, hrel]
          simp
      · exact ⟨hrel, hnull⟩

/-- Every sequence of life events keeps the invariant. -/
theorem life_run_inv (r : ResourceId) (es : List LifeEvent) :
    ∀ l : SubSurfaceLife, l.Inv r → (l.run r es).Inv r := by
  induction es with
  | nil => intro l h; exact h
  | cons e es ih => intro l h; exact ih _ (life_step_inv r l e h)

/-- C12: the native resource `r` of a sub-surface is released exactly once on
every destruction path.  After the destroy request and the deferred delete
(the destructor passes the live handle to `wl_resource_destroy`, which re-enters
`unbind`) exactly `r` has been freed, once, and the object is gone; after the
resource is torn down first (`unbind` clears the handle) and the deferred delete
runs, again exactly `r` has been freed, once.  The destructor never releases a
handle that was cleared, and releases a live handle once.  Along every sequence
of destroy requests, teardowns and deferred deletes `r` is freed at most once,
and exactly once as soon as the object has been deleted. -/
theorem resource_released_exactly_once (d : SubSurfaceInterface.Private) (r : ResourceId)
    (hr : d.subSurface = some r) (es : List LifeEvent) :
    ((SubSurfaceLife.live d).run r [.destroyRequest, .deferredDelete]).released = [r] ∧
    ((SubSurfaceLife.live d).run r [.destroyRequest, .deferredDelete]).d = none ∧
    ((SubSurfaceLife.live d).run r [.resourceTeardown, .deferredDelete]).released = [r] ∧
    ((SubSurfaceLife.live d).run r [.resourceTeardown, .deferredDelete]).d = none ∧
    (∀ (l : SubSurfaceLife) (e : SubSurfaceInterface.Private), l.d = some e →
      e.subSurface = none → l.destructor.released = l.released) ∧
    (∀ (l : SubSurfaceLife) (e : SubSurfaceInterface.Private) (x : ResourceId), l.d = some e →
      e.subSurface = some x → l.destructor.released = l.released ++ [x]) ∧
    ((SubSurfaceLife.live d).run r es).released.count r ≤ 1 ∧
    (((SubSurfaceLife.live d).run r es).d = none →
      ((SubSurfaceLife.live d).run r es).released = [r]) := by
  have hinit : (SubSurfaceLife.live d).Inv r := Or.inl ⟨rfl, d, rfl, hr⟩
  have hinv := life_run_inv r es _ hinit
  refine ⟨?_, ?_, ?_, ?_, fun l e he hn => (life_destructor_cleared l e he hn).1,
    fun l e x he hx => (life_destructor_live l e x he hx).1, ?_, ?_⟩
  · simp [SubSurfaceLife.run, SubSurfaceLife.step, SubSurfaceLife.live,
      SubSurfaceInterface.Private.destroyCallback, SubSurfaceLife.processDeferredDelete,
      SubSurfaceLife.destructor, wl_resource_destroy, SubSurfaceInterface.Private.unbind, hr]
  · simp [SubSurfaceLife.run, SubSurfaceLife.step, SubSurfaceLife.live,
      SubSurfaceInterface.Private.destroyCallback, SubSurfaceLife.processDeferredDelete,
      SubSurfaceLife.destructor, wl_resource_destroy, SubSurfaceInterface.Private.unbind, hr]
  · simp [SubSurfaceLife.run, SubSurfaceLife.step, SubSurfaceLife.live,
      SubSurfaceLife.processDeferredDelete,
      SubSurfaceLife.destructor, wl_resource_destroy, SubSurfaceInterface.Private.unbind]
  · simp [SubSurfaceLife.run, SubSurfaceLife.step, SubSurfaceLife.live,
      SubSurfaceLife.processDeferredDelete,
      SubSurfaceLife.destructor, wl_resource_destroy, SubSurfaceInterface.Private.unbind]
  · rcases hinv with ⟨h, -⟩ | ⟨h, -⟩ <;> rw [h] <;> simp
  · intro hnone
    rcases hinv with ⟨-, e, he, -⟩ | ⟨h, -⟩
    · rw [he] at hnone
      cases hnone
    · exact h

/-- Witness of C12: the sub-surface with resource 7, with a destroy request
followed by a client disconnect before the deferred delete runs. -/
theorem resource_released_exactly_once_witness :
    ((SubSurfaceLife.live
        ⟨0, some 7, some 0, some 1, ⟨0, 0⟩, ⟨0, 0⟩, false, Mode.Synchronized⟩).run 7
      [.destroyRequest, .resourceTeardown, .deferredDelete, .deferredDelete]).d = none ∧
    ((SubSurfaceLife.live
        ⟨0, some 7, some 0, some 1, ⟨0, 0⟩, ⟨0, 0⟩, false, Mode.Synchronized⟩).run 7
      [.destroyRequest, .resourceTeardown, .deferredDelete, .deferredDelete]).released = [7] :=
  ⟨by decide,
   (resource_released_exactly_once
      ⟨0, some 7, some 0, some 1, ⟨0, 0⟩, ⟨0, 0⟩, false, Mode.Synchronized⟩ 7 rfl
      [.destroyRequest, .resourceTeardown, .deferredDelete, .deferredDelete]).2.2.2.2.2.2.2
      (by decide)⟩

/-- The destructor of the object graph frees what the resource part of the
destructor frees. -/
theorem destructor_events_eq_released (w : World) (q : SubSurfaceId)
    (d : SubSurfaceInterface.Private) (hq : w.subSurface? q = some d) :
    (SubSurfaceInterface.Private.destructor w q).2 =
      (SubSurfaceLife.live d).destructor.released.map Event.resourceDestroy := by
  unfold SubSurfaceInterface.Private.destructor SubSurfaceLife.destructor SubSurfaceLife.live
    wl_resource_destroy SubSurfaceInterface.Private.unbind
  simp only [hq]
  cases d.subSurface <;> simp

/-! Tablet tool: theorems -/

/-- Staging updates changes neither the current surface, nor the bindings, nor
whether the session is being left; it appends to what is staged. -/
theorem sendUpdates_fields (us : List ToolUpdate) :
    ∀ t : TabletToolV2Interface,
      (t.sendUpdates us).surface = t.surface ∧ (t.sendUpdates us).bound = t.bound ∧
      (t.sendUpdates us).leaving = t.leaving ∧ (t.sendUpdates us).staged = t.staged ++ us := by
  induction us with
  | nil => intro t; simp [TabletToolV2Interface.sendUpdates]
  | cons u us ih =>
    intro t
    have h := ih (t.sendUpdate u)
    have hu : (t.sendUpdate u).surface = t.surface ∧ (t.sendUpdate u).bound = t.bound ∧
        (t.sendUpdate u).leaving = t.leaving ∧ (t.sendUpdate u).staged = t.staged ++ [u] := by
      cases u <;>
        simp [TabletToolV2Interface.sendUpdate, TabletToolV2Interface.sendPressure,
          TabletToolV2Interface.sendMotion]
    have hfold : t.sendUpdates (u :: us) = (t.sendUpdate u).sendUpdates us := rfl
    rw [hfold, h.1, h.2.1, h.2.2.1, h.2.2.2, hu.1, hu.2.1, hu.2.2.1, hu.2.2.2]
    simp

/-- A tool without a current surface is not supported. -/
theorem isClientSupported_no_surface (client : SurfaceId → ClientId)
    (t : TabletToolV2Interface) (h : t.surface = none) :
    t.isClientSupported client = false := by
  simp [TabletToolV2Interface.isClientSupported, TabletToolV2Interface.target, h]

/-- C11: for a tool whose current surface `s` belongs to a client that has
bound the tool, `sendProximityOut()` delivers proximity-out to that client and
`isClientSupported()` stays true, also while further updates are staged, until
the next `sendFrame`; that frame is delivered to the client with everything
staged, and after it `isClientSupported()` is false.  A tool without a current
surface is never supported. -/
theorem isClientSupported_through_terminating_frame (client : SurfaceId → ClientId)
    (t : TabletToolV2Interface) (s : SurfaceId) (us : List ToolUpdate) (serial : Nat)
    (hs : t.surface = some s) (hb : client s ∈ t.bound) :
    t.isClientSupported client = true ∧
    (t.sendProximityOut client).2 = [ToolEvent.proximityOut (client s)] ∧
    (t.sendProximityOut client).1.isClientSupported client = true ∧
    ((t.sendProximityOut client).1.sendUpdates us).isClientSupported client = true ∧
    (((t.sendProximityOut client).1.sendUpdates us).sendFrame client serial).2 =
      [ToolEvent.frame (client s) serial (t.staged ++ us)] ∧
    (((t.sendProximityOut client).1.sendUpdates us).sendFrame client serial).1.isClientSupported
      client = false ∧
    (∀ u : TabletToolV2Interface, u.surface = none → u.isClientSupported client = false) := by
  have hf := sendUpdates_fields us (t.sendProximityOut client).1
  have hsurf : ((t.sendProximityOut client).1.sendUpdates us).surface = some s := hf.1.trans hs
  have hbound : ((t.sendProximityOut client).1.sendUpdates us).bound = t.bound := hf.2.1
  have hleave : ((t.sendProximityOut client).1.sendUpdates us).leaving = true := hf.2.2.1
  have hstaged : ((t.sendProximityOut client).1.sendUpdates us).staged = t.staged ++ us :=
    hf.2.2.2
  refine ⟨?_, ?_, ?_, ?_, ?_, ?_, fun u hu => isClientSupported_no_surface client u hu⟩
  · simp [TabletToolV2Interface.isClientSupported, TabletToolV2Interface.target, hs, hb]
  · simp [TabletToolV2Interface.sendProximityOut, TabletToolV2Interface.target, hs, hb]
  · simp [TabletToolV2Interface.isClientSupported, TabletToolV2Interface.target,
      TabletToolV2Interface.sendProximityOut, hs, hb]
  · simp only [TabletToolV2Interface.isClientSupported, TabletToolV2Interface.target, hsurf,
      hbound]
    simp [hb]
  · simp only [TabletToolV2Interface.sendFrame, TabletToolV2Interface.target, hsurf, hbound,
      hstaged]
    simp [hb]
  · apply isClientSupported_no_surface
    simp only [TabletToolV2Interface.sendFrame, hleave]
    rfl

/-- Witness of C11: the tool of `testInteractSimple` right before its
`sendProximityOut()`, then the terminating frame with serial 2. -/
theorem isClientSupported_through_terminating_frame_witness :
    (testTool.calls testClient testInteractSimpleCalls.dropLast).surface = some 0 ∧
    ((testTool.calls testClient testInteractSimpleCalls.dropLast).sendProximityOut
      testClient).1.isClientSupported testClient = true ∧
    ((((testTool.calls testClient testInteractSimpleCalls.dropLast).sendProximityOut
      testClient).1.sendUpdates []).sendFrame testClient 2).1.isClientSupported testClient =
      false :=
  ⟨by decide,
   (isClientSupported_through_terminating_frame testClient
      (testTool.calls testClient testInteractSimpleCalls.dropLast) 0 [] 2 (by decide)
      (by decide)).2.2.1,
   (isClientSupported_through_terminating_frame testClient
      (testTool.calls testClient testInteractSimpleCalls.dropLast) 0 [] 2 (by decide)
      (by decide)).2.2.2.2.2.1⟩

/-- The assertions of `testAdd` on `isClientSupported()`: false on the new tool,
false after `setCurrentSurface(nullptr)`. -/
theorem testAdd_supported :
    testTool.isClientSupported testClient = false ∧
    (testTool.calls testClient [.setCurrentSurface none]).isClientSupported testClient = false ∧
    (testTool.calls testClient
      [.setCurrentSurface none, .setCurrentSurface (some 0), .setCurrentSurface (some 1),
       .setCurrentSurface (some 2), .setCurrentSurface none]).isClientSupported testClient =
      false := by
  decide

/-- The assertions of `testInteractSimple` on `isClientSupported()`: false at
the start, true once surface 0 is current, true after `sendProximityOut()`,
false after the frame that follows. -/
theorem testInteractSimple_supported :
    testTool.isClientSupported testClient = false ∧
    (testTool.calls testClient [.setCurrentSurface (some 0)]).isClientSupported testClient =
      true ∧
    (testTool.calls testClient testInteractSimpleCalls).isClientSupported testClient = true ∧
    (testTool.calls testClient (testInteractSimpleCalls ++ [.sendFrame 2])).isClientSupported
      testClient = false := by
  decide

/-- The assertions of `testInteractSurfaceChange` on `isClientSupported()`,
started where `testInteractSimple` ended: false at the start, true once surface
0 is current, true after the switch to surface 1, true after
`sendProximityOut()`, false after the frame that follows. -/
theorem testInteractSurfaceChange_supported :
    (testTool.calls testClient (testInteractSimpleCalls ++ [.sendFrame 2])).isClientSupported
      testClient = false ∧
    (testTool.calls testClient (testInteractSimpleCalls ++ [.sendFrame 2] ++
      testInteractSurfaceChangeCalls.take 1)).isClientSupported testClient = true ∧
    (testTool.calls testClient (testInteractSimpleCalls ++ [.sendFrame 2] ++
      testInteractSurfaceChangeCalls.take 5)).isClientSupported testClient = true ∧
    (testTool.calls testClient (testInteractSimpleCalls ++ [.sendFrame 2] ++
      testInteractSurfaceChangeCalls)).isClientSupported testClient = true ∧
    (testTool.calls testClient (testInteractSimpleCalls ++ [.sendFrame 2] ++
      testInteractSurfaceChangeCalls ++ [.sendFrame 5])).isClientSupported testClient =
      false := by
  decide

end KWayland.Server
